import Mathlib

/-!
Verification of the configuration codec, parameter coercion, directory
reconciliation, batch driver and record generation of GuidedIntegration.py.

The program is shallowly embedded: strings are lists of characters
(`Str`), Python numbers are carried as their `repr` strings (a Python
float is represented by its canonical literal; `eval(repr(x)) == x`
makes this faithful on canonical literals), the filesystem is an
explicit list of existing file paths, and every fallible Python
operation returns `Except`.  All definitions are direct translations of
the corresponding statements of GuidedIntegration.py.
-/

namespace GI

/-- Python strings, modelled as lists of characters. -/
abbrev Str := List Char

/-- Python `str.lower()` (the program only lower-cases ASCII values). -/
def pyLower (s : Str) : Str := s.map Char.toLower

/-- Membership of a single character, Python `c in s` for a 1-char `c`. -/
def containsChar (s : Str) (c : Char) : Bool := s.any (fun d => d == c)

/-- Substring test, Python `sub in s` for a multi-character `sub`. -/
def containsSub (sub : Str) : Str → Bool
  | [] => sub.isEmpty
  | c :: rest => sub.isPrefixOf (c :: rest) || containsSub sub rest

/-- Python `sub in line` on strings. -/
def pySubstr (sub l : Str) : Bool := containsSub sub l

/-- First index of `sub` in `s`, or `-1` when absent: Python `s.find(sub)`. -/
def pyFindAux (sub : Str) : Nat → Str → Int
  | _, [] => if sub.isEmpty then 0 else -1
  | i, c :: rest => if sub.isPrefixOf (c :: rest) then Int.ofNat i else pyFindAux sub (i + 1) rest

/-- Python `s.find(sub)`. -/
def pyFind (sub s : Str) : Int := pyFindAux sub 0 s

/-- Python `s.endswith(suffix)`. -/
def pyEndswith (s suffix : Str) : Bool := suffix.isSuffixOf s

/-- The characters stripped by Python `str.strip()` with no argument. -/
def isWs (c : Char) : Bool :=
  c == ' ' || c == '\t' || c == '\n' || c == '\r' || c == '\x0b' || c == '\x0c'

/-- Strip characters satisfying `p` from both ends (Python `str.strip`). -/
def stripBy (p : Char → Bool) (s : Str) : Str :=
  ((s.dropWhile p).reverse.dropWhile p).reverse

/-- Python `s.strip()` (whitespace on both ends; interior kept). -/
def pyStrip (s : Str) : Str := stripBy isWs s

/-- Python `s.strip('\n')` as applied to each parsed line. -/
def stripNl (s : Str) : Str := stripBy (fun c => c == '\n') s

/-- Python `s.strip(' ')`-like trimming used when reading literal elements. -/
def stripSpaces (s : Str) : Str := stripBy (fun c => c == ' ') s

/-- Python `s.split(c)` for a single-character separator. -/
def splitOnChar (c : Char) (l : Str) : List Str :=
  l.foldr
    (fun x acc =>
      if x == c then [] :: acc
      else
        match acc with
        | a :: rest => (x :: a) :: rest
        | [] => [[x]])
    [[]]

/-- Python `s.split(sep)` for a multi-character separator `sep = c :: cs`
(fuel-driven so that the kernel can evaluate it; `fuel = l.length`). -/
def splitSubAux (c : Char) (cs : Str) : Nat → Str → List Str
  | 0, l => [l]
  | _ + 1, [] => [[]]
  | fuel + 1, x :: xs =>
    if (c :: cs).isPrefixOf (x :: xs) then
      [] :: splitSubAux c cs fuel ((x :: xs).drop (cs.length + 1))
    else
      match splitSubAux c cs fuel xs with
      | a :: rest => (x :: a) :: rest
      | [] => [[x]]

/-- Python `s.split(sep)` for a non-empty separator. -/
def splitSub (c : Char) (cs : Str) (l : Str) : List Str := splitSubAux c cs l.length l

/-- `parts[i]` with Python IndexError modelled as `none`. -/
def nthPart : List Str → Nat → Option Str
  | [], _ => none
  | p :: _, 0 => some p
  | _ :: rest, n + 1 => nthPart rest n

/-- `parts[0]` where at least one part always exists. -/
def firstPart : List Str → Str
  | [] => []
  | p :: _ => p

/-- `lines[i]` with Python IndexError modelled as `none`. -/
def nthLine : List Str → Nat → Option Str
  | [], _ => none
  | l :: _, 0 => some l
  | _ :: rest, n + 1 => nthLine rest n

/-- `os.path.isfile`, an oracle given by the list of existing files. -/
def pyIsFile (fs : List Str) (p : Str) : Bool := fs.any (fun q => q == p)

/-! ## Python scalar and literal values

Numbers are represented by their Python `repr` strings: `.pint "6000"`,
`.pfloat "-1e-10"`.  `.pstr` holds a raw string kept in a numeric
variable (the automask branch can leave the raw text in place). -/

/-- A scalar Python value as held by the configuration variables. -/
inductive PyScalar where
  | pnone : PyScalar
  | pint : Str → PyScalar
  | pfloat : Str → PyScalar
  | pstr : Str → PyScalar
deriving DecidableEq

/-- A Python value as produced by `ast.literal_eval` on the inputs the
program feeds it: `None`, a number, or a flat tuple of scalars. -/
inductive PyVal where
  | scalar : PyScalar → PyVal
  | tup : List PyScalar → PyVal
deriving DecidableEq

/-- Python `c.isdigit()` for the ASCII data handled by the program. -/
def isDigitChar (c : Char) : Bool := c.isDigit

/-- Characters that may appear in a Python numeric literal. -/
def numChar (c : Char) : Bool :=
  c.isDigit || c == '-' || c == '+' || c == '.' || c == 'e' || c == 'E'

/-- Non-empty all-digit strings; a leading zero only as the single digit
`0` (the integer-literal rule of `ast.literal_eval`). -/
def digitsTok (s : Str) : Bool :=
  !s.isEmpty && s.all isDigitChar &&
    (match s with
     | '0' :: rest => rest.isEmpty
     | _ => true)

/-- Python integer literal accepted by `ast.literal_eval` (optional sign). -/
def intTok (s : Str) : Bool :=
  match s with
  | '-' :: rest => digitsTok rest
  | '+' :: rest => digitsTok rest
  | rest => digitsTok rest

/-- Non-empty all-digit strings, leading zeros allowed (for `int(s)`). -/
def digits1 (s : Str) : Bool := !s.isEmpty && s.all isDigitChar

/-- Split a string at the first character satisfying `p`. -/
def breakAt (p : Char → Bool) : Str → Str × Option Str
  | [] => ([], none)
  | c :: cs =>
    if p c then ([], some cs)
    else
      let r := breakAt p cs
      (c :: r.1, r.2)

/-- Mantissa of a Python float literal: `12.`, `.5`, `1.5`, or digits. -/
def mantTok (s : Str) : Bool :=
  match breakAt (fun c => c == '.') s with
  | (ip, some fp) => ip.all isDigitChar && fp.all isDigitChar && (!ip.isEmpty || !fp.isEmpty)
  | (ip, none) => digits1 ip

/-- Exponent of a Python float literal (optional sign, digits). -/
def expTok (s : Str) : Bool :=
  match s with
  | '-' :: rest => digits1 rest
  | '+' :: rest => digits1 rest
  | rest => digits1 rest

/-- Unsigned Python float literal: a mantissa with a decimal point, or a
mantissa followed by an exponent part. -/
def floatCore (s : Str) : Bool :=
  match breakAt (fun c => c == 'e' || c == 'E') s with
  | (m, some e) => mantTok m && expTok e
  | (m, none) => containsChar m '.' && mantTok m

/-- Python float literal accepted by `ast.literal_eval` (optional sign). -/
def floatTok (s : Str) : Bool :=
  match s with
  | '-' :: rest => floatCore rest
  | '+' :: rest => floatCore rest
  | rest => floatCore rest

/-- Printing a scalar with Python `str`: numbers print their repr. -/
def pyScalarStr : PyScalar → Str
  | .pnone => "None".data
  | .pint s => s
  | .pfloat s => s
  | .pstr s => s

/-- Comma-space join of tuple element reprs, as in Python `str(tuple)`. -/
def joinCommaSpace : List Str → Str
  | [] => []
  | [x] => x
  | x :: rest => x ++ ',' :: ' ' :: joinCommaSpace rest

/-- Printing a value with Python `str`; a 1-tuple prints as `(x,)`. -/
def pyValStr : PyVal → Str
  | .scalar v => pyScalarStr v
  | .tup [x] => '(' :: (pyScalarStr x ++ [',', ')'])
  | .tup xs => '(' :: joinCommaSpace (xs.map pyScalarStr) ++ [')']

/-- One scalar of a literal: surrounding spaces dropped, then `None`,
an int literal, or a float literal. -/
def parseScalar (t : Str) : Option PyScalar :=
  let u := stripSpaces t
  if u = "None".data then some .pnone
  else if intTok u then some (.pint u)
  else if floatTok u then some (.pfloat u)
  else none

/-- Parse each part as a scalar; any failure fails the whole literal. -/
def parseScalars : List Str → Option (List PyScalar)
  | [] => some []
  | p :: rest =>
    match parseScalar p, parseScalars rest with
    | some v, some vs => some (v :: vs)
    | _, _ => none

/-- Head character test. -/
def headIs (s : Str) (c : Char) : Bool :=
  match s with
  | [] => false
  | d :: _ => d == c

/-- Last character test. -/
def lastIs (s : Str) (c : Char) : Bool :=
  match s.getLast? with
  | some d => d == c
  | none => false

/-- `ast.literal_eval` on the shapes the program produces and consumes:
`None`, signed numeric literals, and flat tuples (with or without
parentheses).  Any other input is a parse failure (`none`), which the
program never catches (`except TypeError` does not cover it). -/
def literalEval (s : Str) : Option PyVal :=
  if s = "None".data then some (.scalar .pnone)
  else
    let core := if headIs s '(' && lastIs s ')' then (s.drop 1).dropLast else s
    match splitOnChar ',' core with
    | [single] => (parseScalar single).map .scalar
    | parts => (parseScalars parts).map .tup

/-! ## Decimal printing and parsing for Python `int` -/

/-- The decimal digit characters. -/
def digitChar : Nat → Char
  | 0 => '0' | 1 => '1' | 2 => '2' | 3 => '3' | 4 => '4'
  | 5 => '5' | 6 => '6' | 7 => '7' | 8 => '8' | _ => '9'

/-- Value of a decimal digit character. -/
def digitVal (c : Char) : Option Nat :=
  if c.isDigit then some (c.toNat - 48) else none

/-- Most-significant-first decimal digits of `n` (fuel-driven; `[]` for 0). -/
def natReprAux : Nat → Nat → Str
  | 0, _ => []
  | fuel + 1, n => if n = 0 then [] else natReprAux fuel (n / 10) ++ [digitChar (n % 10)]

/-- Python `str(n)` for a natural number. -/
def natRepr (n : Nat) : Str := if n = 0 then ['0'] else natReprAux (n + 1) n

/-- Python `str(i)` for an integer. -/
def pyStrInt (i : Int) : Str :=
  if i < 0 then '-' :: natRepr i.natAbs else natRepr i.toNat

/-- Accumulating decimal parse of a digit string. -/
def parseDigitsAcc (acc : Nat) : Str → Option Nat
  | [] => some acc
  | c :: cs =>
    match digitVal c with
    | some d => parseDigitsAcc (acc * 10 + d) cs
    | none => none

/-- Parse a non-empty digit string. -/
def parseDigits (s : Str) : Option Nat :=
  match s with
  | [] => none
  | _ => parseDigitsAcc 0 s

/-- Python `int(s)`; the argument is already whitespace-stripped by the
caller, so only an optional sign and digits are accepted. -/
def pyInt (s : Str) : Option Int :=
  match s with
  | [] => none
  | c :: rest =>
    if c = '-' then (parseDigits rest).map (fun n => -(n : Int))
    else if c = '+' then (parseDigits rest).map (fun n => (n : Int))
    else (parseDigits (c :: rest)).map (fun n => (n : Int))

/-! ## Program constants (GuidedIntegration.py lines 47-63) -/

/-- Default pixel splitting method `d_intmethod`. -/
def d_intmethod : Str := "full".data

/-- Default x unit `d_xunit`. -/
def d_xunit : Str := "2th_deg".data

/-- Default number of radial points `d_rad_points`. -/
def d_rad_points : Int := 6000

/-- Default radial range `d_rad_range = None`. -/
def d_rad_range : PyVal := .scalar .pnone

/-- Default azimuthal range `d_azim_range = None`. -/
def d_azim_range : PyVal := .scalar .pnone

/-- Default automask value `d_neg_mask = float(-1e-10)` (repr string). -/
def d_neg_mask : PyScalar := .pfloat "-1e-10".data

/-- Default intensity error model `d_errormodel = 'None'`. -/
def d_errormodel : Str := "None".data

/-- `intmethod_accepted`. -/
def intmethod_accepted : List Str := ["no".data, "full".data, "pseudo".data, "bbox".data]

/-- `xunit_accepted`. -/
def xunit_accepted : List Str :=
  ["2th_deg".data, "2th_rad".data, "q_nm^-1".data, "q_A^-1".data, "q_a^-1".data, "r_mm".data]

/-- `neg_mask_accepted`. -/
def neg_mask_accepted : List Str := ["none".data]

/-- `errormodel_accepted`. -/
def errormodel_accepted : List Str := ["none".data, "poisson".data]

/-- `maskfext_accepted`. -/
def maskfext_accepted : List Str := [".tif".data, ".edf".data, ".msk".data, ".npy".data]

/-! ## Parameter coercion (guided branch, lines 254-280 and 402-417) -/

/-- Guided-entry coercion of the pixel splitting method: empty input
gives the default silently; an unrecognized value (under any casing)
warns and gives the default; an accepted value is lower-cased.  Returns
the value and whether a warning was printed. -/
def guided_intmethod (s : Str) : Str × Bool :=
  if s.isEmpty then (d_intmethod, false)
  else if !intmethod_accepted.contains s && !intmethod_accepted.contains (pyLower s) then
    (d_intmethod, true)
  else (pyLower s, false)

/-- Guided-entry coercion of the x unit, with the `tth` and `q`
shorthands resolved before the accepted-set check. -/
def guided_xunit (s : Str) : Str × Bool :=
  if s.isEmpty then (d_xunit, false)
  else if pyLower s = "tth".data then (d_xunit, false)
  else if pyLower s = "q".data then ("q_A^-1".data, false)
  else if !xunit_accepted.contains s && !xunit_accepted.contains (pyLower s) then
    (d_xunit, true)
  else (pyLower s, false)

/-- Guided-entry coercion of the intensity error model. -/
def guided_errormodel (s : Str) : Str × Bool :=
  if s.isEmpty then (d_errormodel, false)
  else if errormodel_accepted.contains s || errormodel_accepted.contains (pyLower s) then
    (pyLower s, false)
  else (d_errormodel, true)

/-! ## Parameter coercion (`.int`-load branch, lines 885-1011) -/

/-- Load-path check of the pixel splitting method (lines 885-886): an
unrecognized value only prints a warning; the raw value is kept and no
default is assigned. -/
def load_intmethod (s : Str) : Str × Bool :=
  if !intmethod_accepted.contains s && !intmethod_accepted.contains (pyLower s) then (s, true)
  else (s, false)

/-- Load-path coercion of the x unit (lines 888-896): `tth` is first
rewritten to the default, then a separate `if`/`elif`/`else` chain
handles `q`, warns (keeping the raw value) for an unrecognized value,
and lower-cases an accepted one. -/
def load_xunit (s : Str) : Str × Bool :=
  let s1 := if pyLower s = "tth".data then d_xunit else s
  if pyLower s1 = "q".data then ("q_A^-1".data, false)
  else if !xunit_accepted.contains s1 && !xunit_accepted.contains (pyLower s1) then (s1, true)
  else (pyLower s1, false)

/-- Load-path coercion of the intensity error model (lines 998-1011). -/
def load_errormodel (s : Str) : Str × Bool :=
  if s.isEmpty then (d_errormodel, false)
  else if errormodel_accepted.contains s || errormodel_accepted.contains (pyLower s) then
    (pyLower s, false)
  else (d_errormodel, true)

/-- Errors through which the load path can terminate: a clean abort via
`sys.exit`, or an uncaught Python exception. -/
inductive LoadErr where
  | missingKeys : List Str → LoadErr
  | typeErr : LoadErr
  | indexErr : LoadErr
  | attrErr : LoadErr
  | valueErr : LoadErr
  | exitPoniMissing : LoadErr
  | exitPoniExt : LoadErr
  | exitBadSource : LoadErr
deriving DecidableEq

/-- Whether a tuple element passes the `type(x) != float and != int` test. -/
def scalIsNum : PyScalar → Bool
  | .pint _ => true
  | .pfloat _ => true
  | _ => false

/-- Load-path coercion of a radial or azimuthal range (lines 900-964).
Empty and `none` give the absent default; a value without any digit
warns and defaults; otherwise `ast.literal_eval` runs (its parse errors
are not `TypeError` and therefore crash), a scalar result hits the
caught `len()` `TypeError` and warns-and-defaults, a 1-tuple warns and
defaults, and a tuple with a non-numeric first or second element warns
and defaults. -/
def load_range (s : Str) : Except LoadErr (PyVal × Bool) :=
  if s.isEmpty then .ok (d_rad_range, false)
  else if s = "none".data || pyLower s = "none".data then .ok (d_rad_range, false)
  else if s.any isDigitChar then
    match literalEval s with
    | none => .error .valueErr
    | some (.scalar .pnone) => .ok (.scalar .pnone, false)
    | some (.scalar _) => .ok (d_rad_range, true)
    | some (.tup xs) =>
      if xs.length > 1 then
        match xs with
        | a :: b :: _ =>
          if !scalIsNum a then .ok (d_rad_range, true)
          else if !scalIsNum b then .ok (d_rad_range, true)
          else .ok (.tup xs, false)
        | _ => .ok (.tup xs, false)
      else if xs.length = 1 then .ok (d_rad_range, true)
      else .ok (.tup xs, false)
  else .ok (d_rad_range, true)

/-- Python `float(x)` on the repr of an integer literal. -/
def pyFloatOfIntStr (s : Str) : Str := s ++ ['.', '0']

/-- Load-path coercion of the automask value (lines 966-996).  Note the
digit test has no `else`: a digit-free value is kept as the raw string. -/
def load_negmask (s : Str) : Except LoadErr (PyScalar × Bool) :=
  if s.isEmpty then .ok (d_neg_mask, false)
  else if s = "none".data || pyLower s = "none".data then .ok (.pnone, false)
  else if s.any isDigitChar then
    match literalEval s with
    | none => .error .valueErr
    | some (.scalar .pnone) => .ok (.pnone, false)
    | some (.scalar (.pint t)) => .ok (.pfloat (pyFloatOfIntStr t), false)
    | some (.scalar (.pfloat t)) => .ok (.pfloat t, false)
    | some (.scalar (.pstr t)) => .ok (.pstr t, false)
    | some (.tup _) => .ok (d_neg_mask, true)
  else .ok (.pstr s, false)

/-- Load-path `rad_points = int(rad_points)` (line 898): a conversion
failure is an uncaught `ValueError`. -/
def load_radpoints (s : Str) : Except LoadErr Int :=
  match pyInt s with
  | some n => .ok n
  | none => .error .valueErr

/-- Load-path data-source check (lines 876-883): the raw string is kept
and only the expected image extension is derived; an unrecognized
source aborts. -/
def load_synsrc (s : Str) : Except LoadErr (Str × Str) :=
  if s = "NSLS-II".data || pyLower s = "nsls-ii".data then .ok (s, ".tiff".data)
  else if s = "APS".data || s = "SSRL".data || pyLower s = "aps".data
      || pyLower s = "ssrl".data then .ok (s, ".tif".data)
  else .error .exitBadSource

/-- The mask-file checks of lines 865-873.  When the path is not an
existing file the variable is set to `None` and the very next statement
calls `fullmaskf.endswith(...)` on it, raising `AttributeError`.  When
the file exists but its extension is unaccepted, the mask is dropped
without error. -/
def maskCheck (fs : List Str) (fullmaskf : Str) : Except LoadErr (Option Str) :=
  let m1 : Option Str := if pyIsFile fs fullmaskf then some fullmaskf else none
  match m1 with
  | none => .error .attrErr
  | some m =>
    if maskfext_accepted.any (fun e => pyEndswith m e) then .ok (some m) else .ok none

/-! ## The `.int` keyword scanner (lines 720-796) -/

/-- Key label of the data source line. -/
def key_src : Str := "Data from NSLS-II, APS, or SSRL".data

/-- Key label of the output root line. -/
def key_dir : Str := "Main integrated pattern directory".data

/-- Key label of the geometry file line. -/
def key_poni : Str := "Poni file".data

/-- Key label of the mask file line. -/
def key_mask : Str := "Mask file".data

/-- Key label of the split-method line. -/
def key_meth : Str := "Pixel splitting method".data

/-- Key label of the unit line. -/
def key_unit : Str := "X unit".data

/-- Key label of the radial-points line. -/
def key_pts : Str := "Radial (x-unit) points".data

/-- Key label of the radial-range line. -/
def key_radr : Str := "Radial (x-unit) range".data

/-- Key label of the azimuthal-range line. -/
def key_azimr : Str := "Azimuthal (deg.) range".data

/-- Key label of the automask line. -/
def key_negm : Str := "Automask pixel value".data

/-- Key label of the error-model line. -/
def key_errm : Str := "Intensity error model".data

/-- The 11 required keys in `keyworddict` order. -/
def intKeys : List Str :=
  [key_src, key_dir, key_poni, key_mask, key_meth, key_unit, key_pts,
   key_radr, key_azimr, key_negm, key_errm]

/-- `editstartstr`. -/
def editstartstr : Str := "Integration parameters and setup.".data

/-- `editendstr`. -/
def editendstr : Str := "User notes / metadata allowed below here:".data

/-- Index of the first line containing `sub`. -/
def firstContainingAux (sub : Str) : Nat → List Str → Option Nat
  | _, [] => none
  | i, l :: rest => if pySubstr sub l then some i else firstContainingAux sub (i + 1) rest

/-- Index of the first line containing `sub`, scanning from the top. -/
def firstContaining (sub : Str) (lines : List Str) : Option Nat :=
  firstContainingAux sub 0 lines

/-- `editstartnum`. -/
def editStart (lines : List Str) : Option Nat := firstContaining editstartstr lines

/-- Python truthiness of the optional line number: `None` and `0` are
falsy. -/
def optTruthy : Option Nat → Bool
  | some (_ + 1) => true
  | _ => false

/-- The line number held by the option (unused when falsy). -/
def optVal : Option Nat → Nat
  | some n => n
  | none => 0

/-- `editendnum` after the `if not editendnum` repair: a missing end
banner, and also one found on line 0 (Python truthiness of `0`), is
replaced by the line count. -/
def editEndNum (lines : List Str) : Nat :=
  if optTruthy (firstContaining editendstr lines) then optVal (firstContaining editendstr lines)
  else lines.length

/-- Result of locating one key: a line number, the `'N/A'` marker, or
the untouched initial `None` (only possible when the file has no lines,
because the fallback loop then never runs). -/
inductive LocVal where
  | found : Nat → LocVal
  | na : LocVal
  | unset : LocVal
deriving DecidableEq

/-- Fallback scan used when the start banner is missing (lines 758-775):
a line containing the key is accepted when any `#` on it comes after
the key text; every iteration that does not break rewrites the entry to
`'N/A'`, so the entry stays `None` only when the file is empty. -/
def fallbackHit (k l : Str) : Bool :=
  pySubstr k l && (if containsChar l '#' then decide (pyFind "#".data l > pyFind k l) else true)

/-- One fallback-scan step over the remaining lines. -/
def fallbackScan (k : Str) : Nat → List Str → LocVal
  | _, [] => .unset
  | i, l :: rest =>
    if fallbackHit k l then
      .found i
    else
      match fallbackScan k (i + 1) rest with
      | .unset => .na
      | r => r

/-- Bounded scan used when the start banner is present (lines 776-785):
first line within `[lo, hi]` containing the key, else `'N/A'`. -/
def boundedScan (k : Str) (lo hi : Nat) : Nat → List Str → LocVal
  | _, [] => .na
  | i, l :: rest =>
    if decide (lo ≤ i) && decide (i ≤ hi) && pySubstr k l then .found i
    else boundedScan k lo hi (i + 1) rest

/-- Locate one key.  `if not editstartnum` is Python truthiness: both a
missing start banner and one found on line 0 select the fallback scan. -/
def locateKey (lines : List Str) (k : Str) : LocVal :=
  if optTruthy (editStart lines) then
    boundedScan k (optVal (editStart lines)) (editEndNum lines) 0 lines
  else fallbackScan k 0 lines

/-! ## Value extraction (lines 798-853) -/

/-- Python `s.split(sep)` for an arbitrary non-empty separator. -/
def splitSubFull (sep : Str) (l : Str) : List Str :=
  match sep with
  | [] => [l]
  | c :: cs => splitSub c cs l

/-- Extract the raw value from a located line: strip `'\n'`, split on
the bare `':'` (`keyed = false`, eight parameter keys) or on the
`'Key:'` literal (`keyed = true`, the three path keys), take part 1
(IndexError when absent), cut an inline `#` comment, strip whitespace. -/
def extractFromLine (k : Str) (keyed : Bool) (line : Str) : Option Str :=
  let core := stripNl line
  let parts :=
    if keyed then splitSubFull (k ++ [':']) core
    else splitOnChar ':' core
  (nthPart parts 1).map fun v0 =>
    let v1 := if containsChar v0 '#' then firstPart (splitOnChar '#' v0) else v0
    pyStrip v1

/-- Raw value of one key of the file: the located line is read back by
index (`'N/A'` or a still-`None` entry indexes the list with a non-int,
a Python `TypeError`) and split apart by `extractFromLine`. -/
def extractRaw (lines : List Str) (k : Str) (keyed : Bool) : Except LoadErr Str :=
  match locateKey lines k with
  | .found n =>
    match nthLine lines n with
    | none => .error .indexErr
    | some line =>
      match extractFromLine k keyed line with
      | some v => .ok v
      | none => .error .indexErr
  | _ => .error .typeErr

/-! ## The configuration record and the whole load path -/

/-- The configuration variables as they stand when both branches meet
the confirmation prompt (line 1159). -/
structure IntegrationConfig where
  synsrc : Str
  oneDdir : Str
  fullponif : Str
  fullmaskf : Option Str
  intmethod : Str
  xunit : Str
  rad_points : Int
  rad_range : PyVal
  azim_range : PyVal
  neg_mask : PyScalar
  errormodel : Str
deriving DecidableEq

/-- `sys.exit` guard helper. -/
def guardE (b : Bool) (e : LoadErr) : Except LoadErr Unit :=
  if b then .error e else .ok ()

/-- The whole `.int` load path (lines 720-1011): locate the 11 keys,
abort listing every `'N/A'` key, extract the 11 raw values, check the
geometry file (fatal), check the mask (crash or downgrade), then coerce
every parameter in source order. -/
def loadInt (fs : List Str) (lines : List Str) : Except LoadErr IntegrationConfig :=
  if intKeys.any (fun k => locateKey lines k == LocVal.na) then
    .error (.missingKeys (intKeys.filter (fun k => locateKey lines k == LocVal.na)))
  else do
    let synsrcRaw ← extractRaw lines key_src false
    let oneDdirRaw ← extractRaw lines key_dir true
    let ponifRaw ← extractRaw lines key_poni true
    let maskfRaw ← extractRaw lines key_mask true
    let intmethodRaw ← extractRaw lines key_meth false
    let xunitRaw ← extractRaw lines key_unit false
    let radptsRaw ← extractRaw lines key_pts false
    let radrangeRaw ← extractRaw lines key_radr false
    let azimrangeRaw ← extractRaw lines key_azimr false
    let negmaskRaw ← extractRaw lines key_negm false
    let errmodelRaw ← extractRaw lines key_errm false
    let _ ← guardE (!pyIsFile fs ponifRaw) .exitPoniMissing
    let _ ← guardE (!pyEndswith ponifRaw ".poni".data) .exitPoniExt
    let maskf ← maskCheck fs maskfRaw
    let sr ← load_synsrc synsrcRaw
    let meth := load_intmethod intmethodRaw
    let xu := load_xunit xunitRaw
    let pts ← load_radpoints radptsRaw
    let radR ← load_range radrangeRaw
    let azimR ← load_range azimrangeRaw
    let negM ← load_negmask negmaskRaw
    let errM := load_errormodel errmodelRaw
    return { synsrc := sr.1, oneDdir := oneDdirRaw, fullponif := ponifRaw,
             fullmaskf := maskf, intmethod := meth.1, xunit := xu.1,
             rad_points := pts, rad_range := radR.1, azim_range := azimR.1,
             neg_mask := negM.1, errormodel := errM.1 }

/-! ## Serialization of the `.int` file (lines 1184-1245)

The writer emits one text; split at its `'\n'` characters (none of the
interpolated values may contain `'\n'`, a condition of `cfgValid`) it
produces exactly the line list below, which is what the reader gets
back from `open(...)`. -/

/-- Date, time and year strings interpolated into the citation block. -/
structure Meta where
  datestr : Str
  timestr : Str
  yearstr : Str

/-- `str(fullmaskf)`: `None` prints as the text `None`. -/
def pyOptStr : Option Str → Str
  | none => "None".data
  | some s => s

/-- A `Key: value` line of the editable section. -/
def paramLine (k v : Str) : Str := k ++ ':' :: ' ' :: v

/-- The 150-`#` banner line. -/
def hline : Str := List.replicate 150 '#'

/-- Line 0 of the `.int` file. -/
def lineTitle : Str := "#Guided Integration .int parameter file".data

/-- The `#Date:` line. -/
def metaDateLine (m : Meta) : Str := "#Date: ".data ++ m.datestr

/-- The `#Time:` line. -/
def metaTimeLine (m : Meta) : Str := "#Time: ".data ++ m.timestr

/-- The `#Version:` line. -/
def lineVersion : Str := "#Version: 0.1".data

/-- The `#Github:` line. -/
def lineGithub : Str := "#Github: github.com/adamcorrao/GuidedIntegration".data

/-- The `#Citation:` line with the year interpolated. -/
def metaCiteLine (m : Meta) : Str :=
  "#Citation: Guided Integration Version 0.1 (".data ++ m.yearstr ++
    "). https://github.com/adamcorrao/GuidedIntegration".data

/-- The pyFAI citation line. -/
def lineCitePyfai : Str :=
  "#Citation for latest paper on pyFAI: Kieffer, J., Valls, V., Blanc, N. & Hennig, C. (2020). J. Synchrotron Rad. 27, 558-566.".data

/-- Parameter-description block lines (`desc_statement`). -/
def descLines : List Str :=
  ["#Description of parameters, options available, acceptable operand / filetypes (Guided Integration formats this correctly):".data,
   "\t#Data from NSLS-II, APS, or SSRL: where was data collected? Expected image extensions are .tiff for NSLS-II and .tif for APS / SSRL. NSLS-II images expected in sub directory 'dark_sub'".data,
   "\t#Main integrated pattern directory: directory where sub directories are created in which integrated patterns are saved".data,
   "\t#Poni file: instrument geometry (e.g., sample-to-detector distance, detector tilts) file - filetype must be .poni".data,
   "\t#Mask file: static mask (e.g., beamstop, detector edges) - must be one of the following filetypes: *.tif | *.edf | *.npy | *.msk".data,
   [],
   "#Integration parameters (see pyFAI docs for more details):".data,
   "\t#Pixel splitting options: no (no splitting), full (full splitting), bbox (bounding box), pseudo (scaled down bbox)".data,
   "\t#X unit options: 2th_deg, 2th_rad, q_nm^-1, q_A^-1, d*2_A^-2, r_mm".data,
   "\t#Radial (x-unit) points: the number of bins in the x-axis - must be a number".data,
   "\t#Radial (x-unit) range: radial range to integrate image over (x-unit specific) - must be a pair of comma separated numbers or None for full range".data,
   "\t#Azimuthal (deg.) range: azimuthal (deg.) range to integrate image over - must be a pair of comma separated numbers or None for full range".data,
   "\t#Automask pixel value: pixels with intensity less than this value are automatically masked - must be a number".data,
   "\t#Intensity error model options: none, poisson for variance = I".data]

/-- The second banner line of the editable-section header. -/
def lineBelowHere : Str :=
  "Below here user can edit parameters after the colon. In-line comments are allowed.".data

/-- The data-source parameter line. -/
def srcLine (cfg : IntegrationConfig) : Str := paramLine key_src cfg.synsrc

/-- The output-root parameter line. -/
def dirLine (cfg : IntegrationConfig) : Str := paramLine key_dir cfg.oneDdir

/-- The geometry-file parameter line. -/
def poniLine (cfg : IntegrationConfig) : Str := paramLine key_poni cfg.fullponif

/-- The mask-file parameter line. -/
def maskLine (cfg : IntegrationConfig) : Str := paramLine key_mask (pyOptStr cfg.fullmaskf)

/-- The split-method parameter line. -/
def methLine (cfg : IntegrationConfig) : Str := paramLine key_meth cfg.intmethod

/-- The unit parameter line. -/
def unitLine (cfg : IntegrationConfig) : Str := paramLine key_unit cfg.xunit

/-- The radial-points parameter line. -/
def ptsLine (cfg : IntegrationConfig) : Str := paramLine key_pts (pyStrInt cfg.rad_points)

/-- The radial-range parameter line. -/
def radrLine (cfg : IntegrationConfig) : Str := paramLine key_radr (pyValStr cfg.rad_range)

/-- The azimuthal-range parameter line. -/
def azimrLine (cfg : IntegrationConfig) : Str := paramLine key_azimr (pyValStr cfg.azim_range)

/-- The automask parameter line. -/
def negmLine (cfg : IntegrationConfig) : Str := paramLine key_negm (pyScalarStr cfg.neg_mask)

/-- The error-model parameter line. -/
def errmLine (cfg : IntegrationConfig) : Str := paramLine key_errm cfg.errormodel

/-- Lines 0-23: title, citation block, description block, first banner. -/
def preambleLines (m : Meta) : List Str :=
  [lineTitle, metaDateLine m, metaTimeLine m, lineVersion, lineGithub,
   metaCiteLine m, lineCitePyfai, []] ++ descLines ++ [[], hline]

/-- Lines 24-43: the editable section and the user-notes banner. -/
def sectionLines (cfg : IntegrationConfig) : List Str :=
  [editstartstr, lineBelowHere, hline, [],
   srcLine cfg, dirLine cfg, poniLine cfg, maskLine cfg, [],
   methLine cfg, unitLine cfg, ptsLine cfg, radrLine cfg, azimrLine cfg,
   negmLine cfg, errmLine cfg, [],
   hline, editendstr, hline]

/-- The serialized `.int` file as its list of lines. -/
def serializeLines (cfg : IntegrationConfig) (m : Meta) : List Str :=
  preambleLines m ++ sectionLines cfg

/-- Newline join. -/
def joinNl : List Str → Str
  | [] => []
  | [l] => l
  | l :: rest => l ++ '\n' :: joinNl rest

/-- The serialized `.int` file as one text. -/
def serializeText (cfg : IntegrationConfig) (m : Meta) : Str :=
  joinNl (serializeLines cfg m)

/-! ## Validity of a configuration

`cfgValid` is the decidable formal reading of a "valid
IntegrationConfig": every field drawn from its accepted set, the path
fields free of the characters and key phrases whose appearance inside a
value already breaks the textual file format itself (newlines, `#`
comment markers, surrounding whitespace, a clone of a key label), the
geometry file existing with extension `.poni`, and the mask either
absent or existing with an accepted extension. -/

/-- Value hygiene shared by every serialized value. -/
def valueHygiene (v : Str) : Bool :=
  !containsChar v '\n' && !containsChar v '#' && pyStrip v == v

/-- Hygiene for a value of a bare-colon key: additionally colon-free. -/
def bareValueOk (v : Str) : Bool := valueHygiene v && !containsChar v ':'

/-- Hygiene for a value of a `Key:`-literal key: the text after the
label must not itself contain the `Key:` phrase. -/
def keyedValueOk (k v : Str) : Bool :=
  valueHygiene v && !pySubstr (k ++ [':']) (' ' :: v)

/-- A serialized line must not contain another key nor a banner phrase. -/
def lineCleanFor (k l : Str) : Bool :=
  (intKeys.all fun q => q == k || !pySubstr q l) &&
    !pySubstr editstartstr l && !pySubstr editendstr l

/-- Hygiene of the date/time/year strings of the citation block. -/
def metaOk (m : Meta) : Bool :=
  !containsChar m.datestr '\n' && !containsChar m.timestr '\n' &&
  !containsChar m.yearstr '\n' &&
  !pySubstr editstartstr (metaDateLine m) && !pySubstr editendstr (metaDateLine m) &&
  !pySubstr editstartstr (metaTimeLine m) && !pySubstr editendstr (metaTimeLine m) &&
  !pySubstr editstartstr (metaCiteLine m) && !pySubstr editendstr (metaCiteLine m)

/-- A numeric-literal token as stored in a configuration value. -/
def baseTok (t : Str) : Bool :=
  !t.isEmpty && t.all numChar && t.any isDigitChar &&
  !(t == "None".data) && !(pyLower t == "none".data) && !headIs t '('

/-- A stored range element: an int or float literal token. -/
def scalTokOk : PyScalar → Bool
  | .pint t => baseTok t && intTok t
  | .pfloat t => baseTok t && floatTok t && !intTok t
  | _ => false

/-- A stored range: absent, or an ordered pair of numeric literals. -/
def rangeValOk : PyVal → Bool
  | .scalar .pnone => true
  | .tup [a, b] => scalTokOk a && scalTokOk b
  | _ => false

/-- A stored automask value: disabled, or a float literal. -/
def negValOk : PyScalar → Bool
  | .pnone => true
  | .pfloat t => baseTok t && floatTok t && !intTok t
  | _ => false

/-- Validity of the mask field against the filesystem. -/
def maskOk (fs : List Str) : Option Str → Bool
  | none => !pyIsFile fs "None".data
  | some p =>
    keyedValueOk key_mask p && pyIsFile fs p &&
      maskfext_accepted.any (fun e => pyEndswith p e)

/-- The accepted data sources. -/
def src_accepted : List Str := ["NSLS-II".data, "APS".data, "SSRL".data]

/-- The error-model values a confirmed configuration can hold: a
lower-cased accepted value or the untouched default `'None'`. -/
def errm_stored : List Str := ["none".data, "poisson".data, "None".data]

/-- Validity of a configuration (see the section comment). -/
def cfgValid (fs : List Str) (cfg : IntegrationConfig) (m : Meta) : Bool :=
  metaOk m &&
  lineCleanFor key_src (srcLine cfg) && lineCleanFor key_dir (dirLine cfg) &&
  lineCleanFor key_poni (poniLine cfg) && lineCleanFor key_mask (maskLine cfg) &&
  lineCleanFor key_meth (methLine cfg) && lineCleanFor key_unit (unitLine cfg) &&
  lineCleanFor key_pts (ptsLine cfg) && lineCleanFor key_radr (radrLine cfg) &&
  lineCleanFor key_azimr (azimrLine cfg) && lineCleanFor key_negm (negmLine cfg) &&
  lineCleanFor key_errm (errmLine cfg) &&
  src_accepted.contains cfg.synsrc &&
  keyedValueOk key_dir cfg.oneDdir &&
  keyedValueOk key_poni cfg.fullponif &&
  maskOk fs cfg.fullmaskf &&
  intmethod_accepted.contains cfg.intmethod &&
  xunit_accepted.contains cfg.xunit &&
  errm_stored.contains cfg.errormodel &&
  bareValueOk (pyStrInt cfg.rad_points) &&
  rangeValOk cfg.rad_range && bareValueOk (pyValStr cfg.rad_range) &&
  rangeValOk cfg.azim_range && bareValueOk (pyValStr cfg.azim_range) &&
  negValOk cfg.neg_mask && bareValueOk (pyScalarStr cfg.neg_mask) &&
  pyIsFile fs cfg.fullponif && pyEndswith cfg.fullponif ".poni".data

/-- Equality of configurations up to case of the four enum fields. -/
def cfgEqModCase (a b : IntegrationConfig) : Prop :=
  pyLower a.synsrc = pyLower b.synsrc ∧ a.oneDdir = b.oneDdir ∧
  a.fullponif = b.fullponif ∧ a.fullmaskf = b.fullmaskf ∧
  pyLower a.intmethod = pyLower b.intmethod ∧ pyLower a.xunit = pyLower b.xunit ∧
  a.rad_points = b.rad_points ∧ a.rad_range = b.rad_range ∧
  a.azim_range = b.azim_range ∧ a.neg_mask = b.neg_mask ∧
  pyLower a.errormodel = pyLower b.errormodel

instance (a b : IntegrationConfig) : Decidable (cfgEqModCase a b) := by
  unfold cfgEqModCase
  infer_instance

/-! ## Directory reconciliation (lines 1129-1152 and 657-680) -/

/-- Outcome of one `os.mkdir` call. -/
inductive MkOutcome where
  | created : MkOutcome
  | already : MkOutcome
  | failedOther : MkOutcome
deriving DecidableEq

/-- The creation loop: on success or `FileExistsError` the name is
appended to `oneD_folders`; any other exception is uncaught and stops
everything at that name. -/
def mkdirAll (outcome : Str → MkOutcome) : List Str → Except Str (List Str)
  | [] => .ok []
  | d :: rest =>
    match outcome d with
    | .failedOther => .error d
    | _ => (mkdirAll outcome rest).map (fun fs => d :: fs)

/-- Result of the reconciliation stage. -/
inductive ReconResult where
  | proceed : List Str → ReconResult
  | abortRaise : Str → ReconResult
  | abortMismatch : List Str → ReconResult
deriving DecidableEq

/-- The creation loop followed by the `dirstoint != oneD_folders`
check, which prints `missingdirs` and exits on a mismatch. -/
def reconcile (outcome : Str → MkOutcome) (dirstoint : List Str) : ReconResult :=
  match mkdirAll outcome dirstoint with
  | .error d => .abortRaise d
  | .ok folders =>
    if dirstoint ≠ folders then
      .abortMismatch (dirstoint.filter (fun i => !folders.contains i))
    else .proceed dirstoint

/-- The directory names an aborting run reports as not mirrored: the
enumerated `missingdirs` on the mismatch path, the single path named by
the uncaught exception otherwise. -/
def reportedNames : ReconResult → List Str
  | .proceed _ => []
  | .abortRaise d => [d]
  | .abortMismatch l => l

/-! ## Batch driver counters (lines 1261-1337) -/

/-- The transient batch state: `totalintcount` and `intedimages`. -/
structure BatchState where
  totalintcount : Nat
  intedimages : List Str
deriving DecidableEq

/-- The per-image body: the counter is incremented and, after the
integration and post-processing, the filename is appended. -/
def integrateFile (st : BatchState) (file : Str) : BatchState :=
  { totalintcount := st.totalintcount + 1, intedimages := st.intedimages ++ [file] }

/-- One directory: the files with the expected image extension,
processed in listing order. -/
def integrateDir (image_extension : Str) (st : BatchState) (listing : List Str) : BatchState :=
  (listing.filter (fun f => pyEndswith f image_extension)).foldl integrateFile st

/-- The whole Execute step over the per-directory listings. -/
def runBatch (image_extension : Str) (listings : List (List Str)) (st : BatchState) : BatchState :=
  listings.foldl (integrateDir image_extension) st

/-- Number of image files the batch will process. -/
def countImages (image_extension : Str) (listings : List (List Str)) : Nat :=
  (listings.map (fun l => (l.filter (fun f => pyEndswith f image_extension)).length)).sum

/-! ## Output naming and error-model selection (lines 1275-1280, 1294-1307) -/

/-- `file.strip(image_extension) + oneD_extension`: Python `str.strip`
removes, from both ends, every character belonging to the set of
characters of its argument. -/
def oneD_basename (image_extension oneD_extension file : Str) : Str :=
  stripBy (fun c => containsChar image_extension c) file ++ oneD_extension

/-- Extension and column labels from the error model (lines 1275-1280);
`none` models the Python `None` value, any unmatched string leaves both
variables unassigned (a `NameError` at first use). -/
def oneD_selection (errormodel : Option Str) (xunit : Str) : Option (Str × List Str) :=
  if errormodel = some "None".data || errormodel = some "none".data || errormodel = none then
    some (".xy".data, ['#' :: xunit, "I".data])
  else if errormodel = some "poisson".data then
    some (".xye".data, ['#' :: xunit, "I".data, "I_err".data])
  else none

/-! ## Confirmation and `.int` persistence order (lines 1170-1253) -/

/-- A file store: association of paths to contents. -/
def storeWrite (store : List (Str × Str)) (path content : Str) : List (Str × Str) :=
  (path, content) :: store.filter (fun e => e.1 ≠ path)

/-- Read a path back from the store. -/
def storeRead (store : List (Str × Str)) (path : Str) : Option Str :=
  (store.find? (fun e => e.1 == path)).map (fun e => e.2)

/-- The tail of both branches: `start_int` is read at line 1170, the
`.int` file is then opened `a+`, truncated and rewritten with the
current configuration (lines 1237-1245), and only afterwards is the
answer evaluated (lines 1248-1253): anything but `1` quits.  Returns
the file store after the write and whether integration proceeds. -/
def confirmAndPersist (cfg : IntegrationConfig) (m : Meta) (answer path : Str)
    (store : List (Str × Str)) : List (Str × Str) × Bool :=
  let store1 := storeWrite store path (serializeText cfg m)
  if answer.isEmpty then (store1, false)
  else if answer ≠ "1".data then (store1, false)
  else (store1, true)

/-- Whether a key was located at a line. -/
def locFound : LocVal → Bool
  | .found _ => true
  | _ => false

/-- The required keys that cannot be located in the file, in
`keyworddict` order. -/
def unlocatedKeys (lines : List Str) : List Str :=
  intKeys.filter (fun k => !locFound (locateKey lines k))

-- Decidable equality of load results, used to evaluate the model on
-- concrete inputs.
deriving instance DecidableEq for Except

/-! ## Concrete instances evaluated by the theorems below -/

/-- A filesystem holding a geometry file and a mask file. -/
def fsW : List Str := ["data/geo.poni".data, "data/mask.tif".data]

/-- A valid configuration with a present mask file. -/
def cfgW : IntegrationConfig :=
  { synsrc := "NSLS-II".data, oneDdir := "out/1D".data,
    fullponif := "data/geo.poni".data, fullmaskf := some "data/mask.tif".data,
    intmethod := "full".data, xunit := "q_A^-1".data, rad_points := 6000,
    rad_range := .tup [.pfloat "0.0".data, .pfloat "15.4".data],
    azim_range := .scalar .pnone, neg_mask := .pfloat "-1e-10".data,
    errormodel := "None".data }

/-- The same configuration with an absent mask file. -/
def cfgAbsent : IntegrationConfig := { cfgW with fullmaskf := none }

/-- A date/time/year triple for the citation block. -/
def mW : Meta := { datestr := "12Oct2026".data, timestr := "10-00-00".data,
                   yearstr := "2026".data }

/-- A creation oracle under which every `os.mkdir` fails for a reason
other than the directory existing. -/
def outAllFail : Str → MkOutcome := fun _ => .failedOther

/-- A creation oracle under which every `os.mkdir` succeeds. -/
def outNoFail : Str → MkOutcome := fun _ => .created

/-! # Lemmas -/

/-! ## Generic list and string lemmas -/

theorem dropWhile_eq_self_of {p : Char → Bool} {l : Str} (h : ∀ c ∈ l, p c = false) :
    l.dropWhile p = l := by
  cases l with
  | nil => rfl
  | cons x xs => simp [List.dropWhile_cons, h x (by simp)]

theorem stripBy_eq_self_of {p : Char → Bool} {l : Str} (h : ∀ c ∈ l, p c = false) :
    stripBy p l = l := by
  unfold stripBy
  rw [dropWhile_eq_self_of h, dropWhile_eq_self_of (by simpa using h), List.reverse_reverse]

theorem containsChar_false_spec {l : Str} {c : Char} (h : containsChar l c = false) :
    ∀ x ∈ l, (x == c) = false := by
  intro x hx
  by_contra hne
  have : containsChar l c = true := by
    unfold containsChar
    exact List.any_eq_true.mpr ⟨x, hx, by simpa using hne⟩
  simp [this] at h

theorem splitOnChar_cons (c x : Char) (l : Str) :
    splitOnChar c (x :: l) =
      (if x == c then [] :: splitOnChar c l
       else
         match splitOnChar c l with
         | a :: rest => (x :: a) :: rest
         | [] => [[x]]) := rfl

theorem splitOnChar_ne_nil (c : Char) (l : Str) : splitOnChar c l ≠ [] := by
  induction l with
  | nil => simp [splitOnChar]
  | cons x xs ih =>
    rw [splitOnChar_cons]
    split
    · simp
    · cases h : splitOnChar c xs with
      | nil => simp
      | cons a rest => simp

theorem splitOnChar_sepfree {c : Char} {l : Str} (h : ∀ x ∈ l, (x == c) = false) :
    splitOnChar c l = [l] := by
  induction l with
  | nil => rfl
  | cons x xs ih =>
    rw [splitOnChar_cons, ih (fun y hy => h y (by simp [hy]))]
    simp [h x (by simp)]

theorem splitOnChar_sepfree_append {c : Char} {a : Str} (b : Str) {h0 : Str} {t : List Str}
    (ha : ∀ x ∈ a, (x == c) = false) (hb : splitOnChar c b = h0 :: t) :
    splitOnChar c (a ++ b) = (a ++ h0) :: t := by
  induction a with
  | nil => simpa using hb
  | cons x xs ih =>
    have hx := ha x (by simp)
    rw [List.cons_append, splitOnChar_cons, ih (fun y hy => ha y (by simp [hy]))]
    simp [hx]

theorem isPrefixOf_append_self (l t : Str) : l.isPrefixOf (l ++ t) = true := by
  induction l with
  | nil => simp [List.isPrefixOf]
  | cons x xs ih => simp [List.isPrefixOf, ih]

theorem containsSub_cons_false {sub : Str} {x : Char} {xs : Str}
    (h : containsSub sub (x :: xs) = false) :
    sub.isPrefixOf (x :: xs) = false ∧ containsSub sub xs = false := by
  unfold containsSub at h
  exact ⟨by simpa using (Bool.or_eq_false_iff.mp h).1, (Bool.or_eq_false_iff.mp h).2⟩

theorem nthPart_cons_one (a b : Str) (rest : List Str) : nthPart (a :: b :: rest) 1 = some b := rfl

/-! ## `splitSub` on a line of the form `sep ++ rest` -/

theorem splitSubAux_no_occurrence (c : Char) (cs : Str) :
    ∀ fuel (l : Str), containsSub (c :: cs) l = false → splitSubAux c cs fuel l = [l] := by
  intro fuel
  induction fuel with
  | zero => intro l _; rfl
  | succ n ih =>
    intro l hl
    cases l with
    | nil => rfl
    | cons x xs =>
      obtain ⟨hpre, hrest⟩ := containsSub_cons_false hl
      rw [splitSubAux]
      simp only [hpre, Bool.false_eq_true, if_false]
      rw [ih xs hrest]

theorem splitSub_self_append (c : Char) (cs rest : Str)
    (h : containsSub (c :: cs) rest = false) :
    splitSub c cs ((c :: cs) ++ rest) = [[], rest] := by
  unfold splitSub
  have hlen : ((c :: cs) ++ rest).length = (cs.length + rest.length) + 1 := by
    simp [List.length_append]
  rw [hlen]
  rw [show (c :: cs) ++ rest = c :: (cs ++ rest) by simp]
  rw [splitSubAux]
  have hpre : (c :: cs).isPrefixOf (c :: (cs ++ rest)) = true :=
    isPrefixOf_append_self (c :: cs) rest
  simp only [hpre, if_true]
  have hdrop : (c :: (cs ++ rest)).drop (cs.length + 1) = rest := by
    simp [List.drop_left]
  rw [hdrop, splitSubAux_no_occurrence c cs _ rest h]

/-! ## Decimal printing and parsing round trip -/

theorem digitVal_digitChar {d : Nat} (h : d < 10) : digitVal (digitChar d) = some d := by
  interval_cases d <;> decide

theorem parseDigitsAcc_append (acc : Nat) (xs ys : Str) :
    parseDigitsAcc acc (xs ++ ys) =
      match parseDigitsAcc acc xs with
      | some m => parseDigitsAcc m ys
      | none => none := by
  induction xs generalizing acc with
  | nil => rfl
  | cons x rest ih =>
    rw [List.cons_append, parseDigitsAcc, parseDigitsAcc]
    cases digitVal x with
    | none => rfl
    | some d => exact ih (acc * 10 + d)

theorem parseDigitsAcc_natReprAux :
    ∀ fuel n acc, n ≤ fuel →
      parseDigitsAcc acc (natReprAux fuel n) =
        some (acc * 10 ^ (natReprAux fuel n).length + n) := by
  intro fuel
  induction fuel with
  | zero =>
    intro n acc hn
    interval_cases n
    simp [natReprAux, parseDigitsAcc]
  | succ f ih =>
    intro n acc hn
    by_cases h0 : n = 0
    · subst h0; simp [natReprAux, parseDigitsAcc]
    · rw [natReprAux]
      simp only [h0, if_false]
      have hdiv : n / 10 ≤ f := by omega
      rw [parseDigitsAcc_append, ih (n / 10) acc hdiv]
      have hmod : n % 10 < 10 := Nat.mod_lt _ (by omega)
      simp only [parseDigitsAcc, digitVal_digitChar hmod]
      rw [List.length_append]
      simp only [List.length_cons, List.length_nil]
      congr 1
      have : acc * 10 ^ ((natReprAux f (n / 10)).length + 1) =
          (acc * 10 ^ (natReprAux f (n / 10)).length) * 10 := by ring
      rw [this]
      have := Nat.div_add_mod n 10
      ring_nf
      omega

theorem parseDigits_natRepr (n : Nat) : parseDigits (natRepr n) = some n := by
  by_cases h0 : n = 0
  · subst h0; rfl
  · unfold natRepr
    simp only [h0, if_false]
    have hne : natReprAux (n + 1) n ≠ [] := by
      rw [natReprAux]
      simp only [h0, if_false]
      simp
    unfold parseDigits
    cases hx : natReprAux (n + 1) n with
    | nil => exact absurd hx hne
    | cons a rest =>
      rw [← hx]
      have := parseDigitsAcc_natReprAux (n + 1) n 0 (by omega)
      simpa using this

theorem pyInt_pyStrInt (i : Int) : pyInt (pyStrInt i) = some i := by
  unfold pyStrInt
  by_cases h : i < 0
  · simp only [h, if_true]
    rw [pyInt]
    rw [if_pos rfl]
    rw [parseDigits_natRepr]
    simp [Int.natCast_natAbs, abs_of_neg h]
  · simp only [h, if_false]
    have hne : natRepr i.toNat ≠ [] := by
      unfold natRepr
      split
      · simp
      · rw [natReprAux]
        split
        · omega
        · simp
    have hnotsign : ∀ x xs, natRepr i.toNat = x :: xs → x ≠ '-' ∧ x ≠ '+' := by
      intro x xs hx
      have hdig : parseDigits (natRepr i.toNat) = some i.toNat := parseDigits_natRepr _
      rw [hx] at hdig
      unfold parseDigits at hdig
      constructor <;> rintro rfl <;>
        simp [parseDigitsAcc, (by decide : digitVal '-' = none),
          (by decide : digitVal '+' = none)] at hdig
    cases hx : natRepr i.toNat with
    | nil => exact absurd hx hne
    | cons x xs =>
      obtain ⟨hm, hp⟩ := hnotsign x xs hx
      have hd := parseDigits_natRepr i.toNat
      rw [hx] at hd
      rw [pyInt]
      rw [if_neg hm, if_neg hp]
      rw [← hx, parseDigits_natRepr]
      simp
      omega

/-! ## Scanner stepping lemmas -/

theorem fca_cons_hit {sub l : Str} {i : Nat} {rest : List Str} (h : pySubstr sub l = true) :
    firstContainingAux sub i (l :: rest) = some i := by
  rw [firstContainingAux]
  simp [h]

theorem fca_cons_miss {sub l : Str} {i : Nat} {rest : List Str} (h : pySubstr sub l = false) :
    firstContainingAux sub i (l :: rest) = firstContainingAux sub (i + 1) rest := by
  rw [firstContainingAux]
  simp [h]

theorem fca_skip {sub : Str} {pre : List Str} {i : Nat} {rest : List Str}
    (h : pre.all (fun l => !pySubstr sub l) = true) :
    firstContainingAux sub i (pre ++ rest) = firstContainingAux sub (i + pre.length) rest := by
  induction pre generalizing i with
  | nil => simp
  | cons p ps ih =>
    have hp : pySubstr sub p = false := by
      have := (List.all_eq_true.mp h) p (by simp)
      simpa using this
    have hps : ps.all (fun l => !pySubstr sub l) = true :=
      List.all_eq_true.mpr fun x hx => (List.all_eq_true.mp h) x (by simp [hx])
    rw [List.cons_append, fca_cons_miss hp, ih hps]
    congr 1
    simp
    omega

theorem bsc_cons_hit {k l : Str} {lo hi i : Nat} {rest : List Str}
    (h1 : lo ≤ i) (h2 : i ≤ hi) (h3 : pySubstr k l = true) :
    boundedScan k lo hi i (l :: rest) = .found i := by
  rw [boundedScan]
  simp [h1, h2, h3]

theorem bsc_cons_miss {k l : Str} {lo hi i : Nat} {rest : List Str} (h : pySubstr k l = false) :
    boundedScan k lo hi i (l :: rest) = boundedScan k lo hi (i + 1) rest := by
  rw [boundedScan]
  simp [h]

theorem bsc_skip {k : Str} {lo hi : Nat} {pre : List Str} {i : Nat} {rest : List Str}
    (h : i + pre.length ≤ lo) :
    boundedScan k lo hi i (pre ++ rest) = boundedScan k lo hi (i + pre.length) rest := by
  induction pre generalizing i with
  | nil => simp
  | cons p ps ih =>
    have hlt : ¬ lo ≤ i := by simp at h; omega
    rw [List.cons_append, boundedScan]
    simp only [decide_eq_true_eq, hlt, decide_eq_false_iff_not, Bool.false_and]
    rw [if_neg (by simp [hlt])]
    rw [ih (by simp at h ⊢; omega)]
    congr 1
    simp
    omega

/-! ## Locating the banners and keys in a serialized file -/

theorem containsSub_append_self (k rest : Str) : containsSub k (k ++ rest) = true := by
  cases k with
  | nil =>
    cases rest with
    | nil => rfl
    | cons x xs => simp [containsSub, List.isPrefixOf]
  | cons c cs =>
    rw [List.cons_append, containsSub]
    have : (c :: cs).isPrefixOf (c :: (cs ++ rest)) = true := isPrefixOf_append_self (c :: cs) rest
    simp [this]

theorem substr_paramLine_self (k v : Str) : pySubstr k (paramLine k v) = true := by
  unfold pySubstr paramLine
  exact containsSub_append_self k (':' :: ' ' :: v)

theorem lineClean_substr {k l q : Str} (h : lineCleanFor k l = true)
    (hq : q ∈ intKeys) (hqk : (q == k) = false) : pySubstr q l = false := by
  unfold lineCleanFor at h
  simp only [Bool.and_eq_true] at h
  have := (List.all_eq_true.mp h.1.1) q hq
  simp only [hqk, Bool.false_or] at this
  simpa using this

theorem lineClean_start {k l : Str} (h : lineCleanFor k l = true) :
    pySubstr editstartstr l = false := by
  unfold lineCleanFor at h
  simp only [Bool.and_eq_true] at h
  simpa using h.1.2

theorem lineClean_end {k l : Str} (h : lineCleanFor k l = true) :
    pySubstr editendstr l = false := by
  unfold lineCleanFor at h
  simp only [Bool.and_eq_true] at h
  simpa using h.2

theorem editStart_serial (cfg : IntegrationConfig) (m : Meta)
    (h1 : pySubstr editstartstr (metaDateLine m) = false)
    (h2 : pySubstr editstartstr (metaTimeLine m) = false)
    (h3 : pySubstr editstartstr (metaCiteLine m) = false) :
    editStart (serializeLines cfg m) = some 24 := by
  unfold editStart firstContaining serializeLines
  rw [show preambleLines m ++ sectionLines cfg =
    lineTitle :: metaDateLine m :: metaTimeLine m :: lineVersion :: lineGithub ::
      metaCiteLine m :: lineCitePyfai :: [] ::
      (descLines ++ ([] :: hline :: sectionLines cfg)) from by
    simp [preambleLines, List.append_assoc]]
  rw [fca_cons_miss (by decide), fca_cons_miss h1, fca_cons_miss h2,
      fca_cons_miss (by decide), fca_cons_miss (by decide), fca_cons_miss h3,
      fca_cons_miss (by decide), fca_cons_miss (by decide)]
  rw [fca_skip (by decide)]
  rw [show 0 + 1 + 1 + 1 + 1 + 1 + 1 + 1 + 1 + descLines.length = 22 from by decide]
  rw [fca_cons_miss (by decide), fca_cons_miss (by decide)]
  rw [show sectionLines cfg = editstartstr :: lineBelowHere :: hline :: [] ::
    srcLine cfg :: dirLine cfg :: poniLine cfg :: maskLine cfg :: [] ::
    methLine cfg :: unitLine cfg :: ptsLine cfg :: radrLine cfg :: azimrLine cfg ::
    negmLine cfg :: errmLine cfg :: [] :: hline :: editendstr :: hline :: [] from rfl]
  rw [fca_cons_hit (by decide)]

theorem firstContaining_end_serial (cfg : IntegrationConfig) (m : Meta)
    (h1 : pySubstr editendstr (metaDateLine m) = false)
    (h2 : pySubstr editendstr (metaTimeLine m) = false)
    (h3 : pySubstr editendstr (metaCiteLine m) = false)
    (hsrc : lineCleanFor key_src (srcLine cfg) = true)
    (hdir : lineCleanFor key_dir (dirLine cfg) = true)
    (hponi : lineCleanFor key_poni (poniLine cfg) = true)
    (hmask : lineCleanFor key_mask (maskLine cfg) = true)
    (hmeth : lineCleanFor key_meth (methLine cfg) = true)
    (hunit : lineCleanFor key_unit (unitLine cfg) = true)
    (hpts : lineCleanFor key_pts (ptsLine cfg) = true)
    (hradr : lineCleanFor key_radr (radrLine cfg) = true)
    (hazimr : lineCleanFor key_azimr (azimrLine cfg) = true)
    (hnegm : lineCleanFor key_negm (negmLine cfg) = true)
    (herrm : lineCleanFor key_errm (errmLine cfg) = true) :
    firstContaining editendstr (serializeLines cfg m) = some 42 := by
  unfold firstContaining serializeLines
  rw [show preambleLines m ++ sectionLines cfg =
    lineTitle :: metaDateLine m :: metaTimeLine m :: lineVersion :: lineGithub ::
      metaCiteLine m :: lineCitePyfai :: [] ::
      (descLines ++ ([] :: hline :: sectionLines cfg)) from by
    simp [preambleLines, List.append_assoc]]
  rw [fca_cons_miss (by decide), fca_cons_miss h1, fca_cons_miss h2,
      fca_cons_miss (by decide), fca_cons_miss (by decide), fca_cons_miss h3,
      fca_cons_miss (by decide), fca_cons_miss (by decide)]
  rw [fca_skip (by decide)]
  rw [show 0 + 1 + 1 + 1 + 1 + 1 + 1 + 1 + 1 + descLines.length = 22 from by decide]
  rw [fca_cons_miss (by decide), fca_cons_miss (by decide)]
  rw [show sectionLines cfg = editstartstr :: lineBelowHere :: hline :: [] ::
    srcLine cfg :: dirLine cfg :: poniLine cfg :: maskLine cfg :: [] ::
    methLine cfg :: unitLine cfg :: ptsLine cfg :: radrLine cfg :: azimrLine cfg ::
    negmLine cfg :: errmLine cfg :: [] :: hline :: editendstr :: hline :: [] from rfl]
  rw [fca_cons_miss (by decide), fca_cons_miss (by decide), fca_cons_miss (by decide),
      fca_cons_miss (by decide)]
  rw [fca_cons_miss (lineClean_end hsrc), fca_cons_miss (lineClean_end hdir),
      fca_cons_miss (lineClean_end hponi), fca_cons_miss (lineClean_end hmask),
      fca_cons_miss (by decide),
      fca_cons_miss (lineClean_end hmeth), fca_cons_miss (lineClean_end hunit),
      fca_cons_miss (lineClean_end hpts), fca_cons_miss (lineClean_end hradr),
      fca_cons_miss (lineClean_end hazimr), fca_cons_miss (lineClean_end hnegm),
      fca_cons_miss (lineClean_end herrm),
      fca_cons_miss (by decide), fca_cons_miss (by decide)]
  rw [fca_cons_hit (by decide)]

theorem preamble_len (m : Meta) : (preambleLines m).length = 24 := rfl

theorem editEnd_serial {lines : List Str}
    (h : firstContaining editendstr lines = some 42) : editEndNum lines = 42 := by
  unfold editEndNum
  rw [h]
  rfl

theorem locateKey_bounded {lines : List Str} (k : Str)
    (hs : editStart lines = some 24) (he : editEndNum lines = 42) :
    locateKey lines k = boundedScan k 24 42 0 lines := by
  unfold locateKey
  rw [hs, he]
  rfl

theorem locate_src (cfg : IntegrationConfig) (m : Meta)
    (hs : editStart (serializeLines cfg m) = some 24)
    (he : editEndNum (serializeLines cfg m) = 42)
    : locateKey (serializeLines cfg m) key_src = .found 28 := by
  rw [locateKey_bounded key_src hs he]
  rw [show serializeLines cfg m = preambleLines m ++ sectionLines cfg from rfl]
  rw [bsc_skip (by simp [preamble_len])]
  simp only [preamble_len, Nat.zero_add]
  rw [show sectionLines cfg = editstartstr :: lineBelowHere :: hline :: [] ::
    srcLine cfg :: dirLine cfg :: poniLine cfg :: maskLine cfg :: [] ::
    methLine cfg :: unitLine cfg :: ptsLine cfg :: radrLine cfg :: azimrLine cfg ::
    negmLine cfg :: errmLine cfg :: [] :: hline :: editendstr :: hline :: [] from rfl]
  rw [bsc_cons_miss (by decide),
      bsc_cons_miss (by decide),
      bsc_cons_miss (by decide),
      bsc_cons_miss (by decide)]
  rw [bsc_cons_hit (by decide) (by decide)
      (show pySubstr key_src (srcLine cfg) = true from substr_paramLine_self key_src cfg.synsrc)]

theorem locate_dir (cfg : IntegrationConfig) (m : Meta)
    (hs : editStart (serializeLines cfg m) = some 24)
    (he : editEndNum (serializeLines cfg m) = 42)
    (hsrc : lineCleanFor key_src (srcLine cfg) = true)
    : locateKey (serializeLines cfg m) key_dir = .found 29 := by
  rw [locateKey_bounded key_dir hs he]
  rw [show serializeLines cfg m = preambleLines m ++ sectionLines cfg from rfl]
  rw [bsc_skip (by simp [preamble_len])]
  simp only [preamble_len, Nat.zero_add]
  rw [show sectionLines cfg = editstartstr :: lineBelowHere :: hline :: [] ::
    srcLine cfg :: dirLine cfg :: poniLine cfg :: maskLine cfg :: [] ::
    methLine cfg :: unitLine cfg :: ptsLine cfg :: radrLine cfg :: azimrLine cfg ::
    negmLine cfg :: errmLine cfg :: [] :: hline :: editendstr :: hline :: [] from rfl]
  rw [bsc_cons_miss (by decide),
      bsc_cons_miss (by decide),
      bsc_cons_miss (by decide),
      bsc_cons_miss (by decide),
      bsc_cons_miss (lineClean_substr hsrc (by decide) (by decide))]
  rw [bsc_cons_hit (by decide) (by decide)
      (show pySubstr key_dir (dirLine cfg) = true from substr_paramLine_self key_dir cfg.oneDdir)]

theorem locate_poni (cfg : IntegrationConfig) (m : Meta)
    (hs : editStart (serializeLines cfg m) = some 24)
    (he : editEndNum (serializeLines cfg m) = 42)
    (hsrc : lineCleanFor key_src (srcLine cfg) = true)
    (hdir : lineCleanFor key_dir (dirLine cfg) = true)
    : locateKey (serializeLines cfg m) key_poni = .found 30 := by
  rw [locateKey_bounded key_poni hs he]
  rw [show serializeLines cfg m = preambleLines m ++ sectionLines cfg from rfl]
  rw [bsc_skip (by simp [preamble_len])]
  simp only [preamble_len, Nat.zero_add]
  rw [show sectionLines cfg = editstartstr :: lineBelowHere :: hline :: [] ::
    srcLine cfg :: dirLine cfg :: poniLine cfg :: maskLine cfg :: [] ::
    methLine cfg :: unitLine cfg :: ptsLine cfg :: radrLine cfg :: azimrLine cfg ::
    negmLine cfg :: errmLine cfg :: [] :: hline :: editendstr :: hline :: [] from rfl]
  rw [bsc_cons_miss (by decide),
      bsc_cons_miss (by decide),
      bsc_cons_miss (by decide),
      bsc_cons_miss (by decide),
      bsc_cons_miss (lineClean_substr hsrc (by decide) (by decide)),
      bsc_cons_miss (lineClean_substr hdir (by decide) (by decide))]
  rw [bsc_cons_hit (by decide) (by decide)
      (show pySubstr key_poni (poniLine cfg) = true from substr_paramLine_self key_poni cfg.fullponif)]

theorem locate_mask (cfg : IntegrationConfig) (m : Meta)
    (hs : editStart (serializeLines cfg m) = some 24)
    (he : editEndNum (serializeLines cfg m) = 42)
    (hsrc : lineCleanFor key_src (srcLine cfg) = true)
    (hdir : lineCleanFor key_dir (dirLine cfg) = true)
    (hponi : lineCleanFor key_poni (poniLine cfg) = true)
    : locateKey (serializeLines cfg m) key_mask = .found 31 := by
  rw [locateKey_bounded key_mask hs he]
  rw [show serializeLines cfg m = preambleLines m ++ sectionLines cfg from rfl]
  rw [bsc_skip (by simp [preamble_len])]
  simp only [preamble_len, Nat.zero_add]
  rw [show sectionLines cfg = editstartstr :: lineBelowHere :: hline :: [] ::
    srcLine cfg :: dirLine cfg :: poniLine cfg :: maskLine cfg :: [] ::
    methLine cfg :: unitLine cfg :: ptsLine cfg :: radrLine cfg :: azimrLine cfg ::
    negmLine cfg :: errmLine cfg :: [] :: hline :: editendstr :: hline :: [] from rfl]
  rw [bsc_cons_miss (by decide),
      bsc_cons_miss (by decide),
      bsc_cons_miss (by decide),
      bsc_cons_miss (by decide),
      bsc_cons_miss (lineClean_substr hsrc (by decide) (by decide)),
      bsc_cons_miss (lineClean_substr hdir (by decide) (by decide)),
      bsc_cons_miss (lineClean_substr hponi (by decide) (by decide))]
  rw [bsc_cons_hit (by decide) (by decide)
      (show pySubstr key_mask (maskLine cfg) = true from substr_paramLine_self key_mask (pyOptStr cfg.fullmaskf))]

theorem locate_meth (cfg : IntegrationConfig) (m : Meta)
    (hs : editStart (serializeLines cfg m) = some 24)
    (he : editEndNum (serializeLines cfg m) = 42)
    (hsrc : lineCleanFor key_src (srcLine cfg) = true)
    (hdir : lineCleanFor key_dir (dirLine cfg) = true)
    (hponi : lineCleanFor key_poni (poniLine cfg) = true)
    (hmask : lineCleanFor key_mask (maskLine cfg) = true)
    : locateKey (serializeLines cfg m) key_meth = .found 33 := by
  rw [locateKey_bounded key_meth hs he]
  rw [show serializeLines cfg m = preambleLines m ++ sectionLines cfg from rfl]
  rw [bsc_skip (by simp [preamble_len])]
  simp only [preamble_len, Nat.zero_add]
  rw [show sectionLines cfg = editstartstr :: lineBelowHere :: hline :: [] ::
    srcLine cfg :: dirLine cfg :: poniLine cfg :: maskLine cfg :: [] ::
    methLine cfg :: unitLine cfg :: ptsLine cfg :: radrLine cfg :: azimrLine cfg ::
    negmLine cfg :: errmLine cfg :: [] :: hline :: editendstr :: hline :: [] from rfl]
  rw [bsc_cons_miss (by decide),
      bsc_cons_miss (by decide),
      bsc_cons_miss (by decide),
      bsc_cons_miss (by decide),
      bsc_cons_miss (lineClean_substr hsrc (by decide) (by decide)),
      bsc_cons_miss (lineClean_substr hdir (by decide) (by decide)),
      bsc_cons_miss (lineClean_substr hponi (by decide) (by decide)),
      bsc_cons_miss (lineClean_substr hmask (by decide) (by decide)),
      bsc_cons_miss (by decide)]
  rw [bsc_cons_hit (by decide) (by decide)
      (show pySubstr key_meth (methLine cfg) = true from substr_paramLine_self key_meth cfg.intmethod)]

theorem locate_unit (cfg : IntegrationConfig) (m : Meta)
    (hs : editStart (serializeLines cfg m) = some 24)
    (he : editEndNum (serializeLines cfg m) = 42)
    (hsrc : lineCleanFor key_src (srcLine cfg) = true)
    (hdir : lineCleanFor key_dir (dirLine cfg) = true)
    (hponi : lineCleanFor key_poni (poniLine cfg) = true)
    (hmask : lineCleanFor key_mask (maskLine cfg) = true)
    (hmeth : lineCleanFor key_meth (methLine cfg) = true)
    : locateKey (serializeLines cfg m) key_unit = .found 34 := by
  rw [locateKey_bounded key_unit hs he]
  rw [show serializeLines cfg m = preambleLines m ++ sectionLines cfg from rfl]
  rw [bsc_skip (by simp [preamble_len])]
  simp only [preamble_len, Nat.zero_add]
  rw [show sectionLines cfg = editstartstr :: lineBelowHere :: hline :: [] ::
    srcLine cfg :: dirLine cfg :: poniLine cfg :: maskLine cfg :: [] ::
    methLine cfg :: unitLine cfg :: ptsLine cfg :: radrLine cfg :: azimrLine cfg ::
    negmLine cfg :: errmLine cfg :: [] :: hline :: editendstr :: hline :: [] from rfl]
  rw [bsc_cons_miss (by decide),
      bsc_cons_miss (by decide),
      bsc_cons_miss (by decide),
      bsc_cons_miss (by decide),
      bsc_cons_miss (lineClean_substr hsrc (by decide) (by decide)),
      bsc_cons_miss (lineClean_substr hdir (by decide) (by decide)),
      bsc_cons_miss (lineClean_substr hponi (by decide) (by decide)),
      bsc_cons_miss (lineClean_substr hmask (by decide) (by decide)),
      bsc_cons_miss (by decide),
      bsc_cons_miss (lineClean_substr hmeth (by decide) (by decide))]
  rw [bsc_cons_hit (by decide) (by decide)
      (show pySubstr key_unit (unitLine cfg) = true from substr_paramLine_self key_unit cfg.xunit)]

theorem locate_pts (cfg : IntegrationConfig) (m : Meta)
    (hs : editStart (serializeLines cfg m) = some 24)
    (he : editEndNum (serializeLines cfg m) = 42)
    (hsrc : lineCleanFor key_src (srcLine cfg) = true)
    (hdir : lineCleanFor key_dir (dirLine cfg) = true)
    (hponi : lineCleanFor key_poni (poniLine cfg) = true)
    (hmask : lineCleanFor key_mask (maskLine cfg) = true)
    (hmeth : lineCleanFor key_meth (methLine cfg) = true)
    (hunit : lineCleanFor key_unit (unitLine cfg) = true)
    : locateKey (serializeLines cfg m) key_pts = .found 35 := by
  rw [locateKey_bounded key_pts hs he]
  rw [show serializeLines cfg m = preambleLines m ++ sectionLines cfg from rfl]
  rw [bsc_skip (by simp [preamble_len])]
  simp only [preamble_len, Nat.zero_add]
  rw [show sectionLines cfg = editstartstr :: lineBelowHere :: hline :: [] ::
    srcLine cfg :: dirLine cfg :: poniLine cfg :: maskLine cfg :: [] ::
    methLine cfg :: unitLine cfg :: ptsLine cfg :: radrLine cfg :: azimrLine cfg ::
    negmLine cfg :: errmLine cfg :: [] :: hline :: editendstr :: hline :: [] from rfl]
  rw [bsc_cons_miss (by decide),
      bsc_cons_miss (by decide),
      bsc_cons_miss (by decide),
      bsc_cons_miss (by decide),
      bsc_cons_miss (lineClean_substr hsrc (by decide) (by decide)),
      bsc_cons_miss (lineClean_substr hdir (by decide) (by decide)),
      bsc_cons_miss (lineClean_substr hponi (by decide) (by decide)),
      bsc_cons_miss (lineClean_substr hmask (by decide) (by decide)),
      bsc_cons_miss (by decide),
      bsc_cons_miss (lineClean_substr hmeth (by decide) (by decide)),
      bsc_cons_miss (lineClean_substr hunit (by decide) (by decide))]
  rw [bsc_cons_hit (by decide) (by decide)
      (show pySubstr key_pts (ptsLine cfg) = true from substr_paramLine_self key_pts (pyStrInt cfg.rad_points))]

theorem locate_radr (cfg : IntegrationConfig) (m : Meta)
    (hs : editStart (serializeLines cfg m) = some 24)
    (he : editEndNum (serializeLines cfg m) = 42)
    (hsrc : lineCleanFor key_src (srcLine cfg) = true)
    (hdir : lineCleanFor key_dir (dirLine cfg) = true)
    (hponi : lineCleanFor key_poni (poniLine cfg) = true)
    (hmask : lineCleanFor key_mask (maskLine cfg) = true)
    (hmeth : lineCleanFor key_meth (methLine cfg) = true)
    (hunit : lineCleanFor key_unit (unitLine cfg) = true)
    (hpts : lineCleanFor key_pts (ptsLine cfg) = true)
    : locateKey (serializeLines cfg m) key_radr = .found 36 := by
  rw [locateKey_bounded key_radr hs he]
  rw [show serializeLines cfg m = preambleLines m ++ sectionLines cfg from rfl]
  rw [bsc_skip (by simp [preamble_len])]
  simp only [preamble_len, Nat.zero_add]
  rw [show sectionLines cfg = editstartstr :: lineBelowHere :: hline :: [] ::
    srcLine cfg :: dirLine cfg :: poniLine cfg :: maskLine cfg :: [] ::
    methLine cfg :: unitLine cfg :: ptsLine cfg :: radrLine cfg :: azimrLine cfg ::
    negmLine cfg :: errmLine cfg :: [] :: hline :: editendstr :: hline :: [] from rfl]
  rw [bsc_cons_miss (by decide),
      bsc_cons_miss (by decide),
      bsc_cons_miss (by decide),
      bsc_cons_miss (by decide),
      bsc_cons_miss (lineClean_substr hsrc (by decide) (by decide)),
      bsc_cons_miss (lineClean_substr hdir (by decide) (by decide)),
      bsc_cons_miss (lineClean_substr hponi (by decide) (by decide)),
      bsc_cons_miss (lineClean_substr hmask (by decide) (by decide)),
      bsc_cons_miss (by decide),
      bsc_cons_miss (lineClean_substr hmeth (by decide) (by decide)),
      bsc_cons_miss (lineClean_substr hunit (by decide) (by decide)),
      bsc_cons_miss (lineClean_substr hpts (by decide) (by decide))]
  rw [bsc_cons_hit (by decide) (by decide)
      (show pySubstr key_radr (radrLine cfg) = true from substr_paramLine_self key_radr (pyValStr cfg.rad_range))]

theorem locate_azimr (cfg : IntegrationConfig) (m : Meta)
    (hs : editStart (serializeLines cfg m) = some 24)
    (he : editEndNum (serializeLines cfg m) = 42)
    (hsrc : lineCleanFor key_src (srcLine cfg) = true)
    (hdir : lineCleanFor key_dir (dirLine cfg) = true)
    (hponi : lineCleanFor key_poni (poniLine cfg) = true)
    (hmask : lineCleanFor key_mask (maskLine cfg) = true)
    (hmeth : lineCleanFor key_meth (methLine cfg) = true)
    (hunit : lineCleanFor key_unit (unitLine cfg) = true)
    (hpts : lineCleanFor key_pts (ptsLine cfg) = true)
    (hradr : lineCleanFor key_radr (radrLine cfg) = true)
    : locateKey (serializeLines cfg m) key_azimr = .found 37 := by
  rw [locateKey_bounded key_azimr hs he]
  rw [show serializeLines cfg m = preambleLines m ++ sectionLines cfg from rfl]
  rw [bsc_skip (by simp [preamble_len])]
  simp only [preamble_len, Nat.zero_add]
  rw [show sectionLines cfg = editstartstr :: lineBelowHere :: hline :: [] ::
    srcLine cfg :: dirLine cfg :: poniLine cfg :: maskLine cfg :: [] ::
    methLine cfg :: unitLine cfg :: ptsLine cfg :: radrLine cfg :: azimrLine cfg ::
    negmLine cfg :: errmLine cfg :: [] :: hline :: editendstr :: hline :: [] from rfl]
  rw [bsc_cons_miss (by decide),
      bsc_cons_miss (by decide),
      bsc_cons_miss (by decide),
      bsc_cons_miss (by decide),
      bsc_cons_miss (lineClean_substr hsrc (by decide) (by decide)),
      bsc_cons_miss (lineClean_substr hdir (by decide) (by decide)),
      bsc_cons_miss (lineClean_substr hponi (by decide) (by decide)),
      bsc_cons_miss (lineClean_substr hmask (by decide) (by decide)),
      bsc_cons_miss (by decide),
      bsc_cons_miss (lineClean_substr hmeth (by decide) (by decide)),
      bsc_cons_miss (lineClean_substr hunit (by decide) (by decide)),
      bsc_cons_miss (lineClean_substr hpts (by decide) (by decide)),
      bsc_cons_miss (lineClean_substr hradr (by decide) (by decide))]
  rw [bsc_cons_hit (by decide) (by decide)
      (show pySubstr key_azimr (azimrLine cfg) = true from substr_paramLine_self key_azimr (pyValStr cfg.azim_range))]

theorem locate_negm (cfg : IntegrationConfig) (m : Meta)
    (hs : editStart (serializeLines cfg m) = some 24)
    (he : editEndNum (serializeLines cfg m) = 42)
    (hsrc : lineCleanFor key_src (srcLine cfg) = true)
    (hdir : lineCleanFor key_dir (dirLine cfg) = true)
    (hponi : lineCleanFor key_poni (poniLine cfg) = true)
    (hmask : lineCleanFor key_mask (maskLine cfg) = true)
    (hmeth : lineCleanFor key_meth (methLine cfg) = true)
    (hunit : lineCleanFor key_unit (unitLine cfg) = true)
    (hpts : lineCleanFor key_pts (ptsLine cfg) = true)
    (hradr : lineCleanFor key_radr (radrLine cfg) = true)
    (hazimr : lineCleanFor key_azimr (azimrLine cfg) = true)
    : locateKey (serializeLines cfg m) key_negm = .found 38 := by
  rw [locateKey_bounded key_negm hs he]
  rw [show serializeLines cfg m = preambleLines m ++ sectionLines cfg from rfl]
  rw [bsc_skip (by simp [preamble_len])]
  simp only [preamble_len, Nat.zero_add]
  rw [show sectionLines cfg = editstartstr :: lineBelowHere :: hline :: [] ::
    srcLine cfg :: dirLine cfg :: poniLine cfg :: maskLine cfg :: [] ::
    methLine cfg :: unitLine cfg :: ptsLine cfg :: radrLine cfg :: azimrLine cfg ::
    negmLine cfg :: errmLine cfg :: [] :: hline :: editendstr :: hline :: [] from rfl]
  rw [bsc_cons_miss (by decide),
      bsc_cons_miss (by decide),
      bsc_cons_miss (by decide),
      bsc_cons_miss (by decide),
      bsc_cons_miss (lineClean_substr hsrc (by decide) (by decide)),
      bsc_cons_miss (lineClean_substr hdir (by decide) (by decide)),
      bsc_cons_miss (lineClean_substr hponi (by decide) (by decide)),
      bsc_cons_miss (lineClean_substr hmask (by decide) (by decide)),
      bsc_cons_miss (by decide),
      bsc_cons_miss (lineClean_substr hmeth (by decide) (by decide)),
      bsc_cons_miss (lineClean_substr hunit (by decide) (by decide)),
      bsc_cons_miss (lineClean_substr hpts (by decide) (by decide)),
      bsc_cons_miss (lineClean_substr hradr (by decide) (by decide)),
      bsc_cons_miss (lineClean_substr hazimr (by decide) (by decide))]
  rw [bsc_cons_hit (by decide) (by decide)
      (show pySubstr key_negm (negmLine cfg) = true from substr_paramLine_self key_negm (pyScalarStr cfg.neg_mask))]

theorem locate_errm (cfg : IntegrationConfig) (m : Meta)
    (hs : editStart (serializeLines cfg m) = some 24)
    (he : editEndNum (serializeLines cfg m) = 42)
    (hsrc : lineCleanFor key_src (srcLine cfg) = true)
    (hdir : lineCleanFor key_dir (dirLine cfg) = true)
    (hponi : lineCleanFor key_poni (poniLine cfg) = true)
    (hmask : lineCleanFor key_mask (maskLine cfg) = true)
    (hmeth : lineCleanFor key_meth (methLine cfg) = true)
    (hunit : lineCleanFor key_unit (unitLine cfg) = true)
    (hpts : lineCleanFor key_pts (ptsLine cfg) = true)
    (hradr : lineCleanFor key_radr (radrLine cfg) = true)
    (hazimr : lineCleanFor key_azimr (azimrLine cfg) = true)
    (hnegm : lineCleanFor key_negm (negmLine cfg) = true)
    : locateKey (serializeLines cfg m) key_errm = .found 39 := by
  rw [locateKey_bounded key_errm hs he]
  rw [show serializeLines cfg m = preambleLines m ++ sectionLines cfg from rfl]
  rw [bsc_skip (by simp [preamble_len])]
  simp only [preamble_len, Nat.zero_add]
  rw [show sectionLines cfg = editstartstr :: lineBelowHere :: hline :: [] ::
    srcLine cfg :: dirLine cfg :: poniLine cfg :: maskLine cfg :: [] ::
    methLine cfg :: unitLine cfg :: ptsLine cfg :: radrLine cfg :: azimrLine cfg ::
    negmLine cfg :: errmLine cfg :: [] :: hline :: editendstr :: hline :: [] from rfl]
  rw [bsc_cons_miss (by decide),
      bsc_cons_miss (by decide),
      bsc_cons_miss (by decide),
      bsc_cons_miss (by decide),
      bsc_cons_miss (lineClean_substr hsrc (by decide) (by decide)),
      bsc_cons_miss (lineClean_substr hdir (by decide) (by decide)),
      bsc_cons_miss (lineClean_substr hponi (by decide) (by decide)),
      bsc_cons_miss (lineClean_substr hmask (by decide) (by decide)),
      bsc_cons_miss (by decide),
      bsc_cons_miss (lineClean_substr hmeth (by decide) (by decide)),
      bsc_cons_miss (lineClean_substr hunit (by decide) (by decide)),
      bsc_cons_miss (lineClean_substr hpts (by decide) (by decide)),
      bsc_cons_miss (lineClean_substr hradr (by decide) (by decide)),
      bsc_cons_miss (lineClean_substr hazimr (by decide) (by decide)),
      bsc_cons_miss (lineClean_substr hnegm (by decide) (by decide))]
  rw [bsc_cons_hit (by decide) (by decide)
      (show pySubstr key_errm (errmLine cfg) = true from substr_paramLine_self key_errm cfg.errormodel)]

/-! ## Extraction lemmas -/

theorem containsChar_cons (x : Char) (v : Str) (c : Char) :
    containsChar (x :: v) c = ((x == c) || containsChar v c) := by
  simp [containsChar]

theorem stripNl_paramLine {k v : Str} (hkn : containsChar k '\n' = false)
    (hvn : containsChar v '\n' = false) : stripNl (paramLine k v) = paramLine k v := by
  unfold stripNl
  apply stripBy_eq_self_of
  intro c hc
  unfold paramLine at hc
  rcases List.mem_append.mp hc with hk | hrest
  · exact containsChar_false_spec hkn c hk
  · simp only [List.mem_cons] at hrest
    rcases hrest with h1 | h1 | h1
    · subst h1; decide
    · subst h1; decide
    · exact containsChar_false_spec hvn c h1

theorem pyStrip_cons_space {v : Str} (hvs : pyStrip v = v) : pyStrip (' ' :: v) = v := by
  unfold pyStrip stripBy at hvs ⊢
  rw [List.dropWhile_cons]
  simp only [show isWs ' ' = true from rfl, if_true]
  exact hvs

theorem extract_bare {k v : Str}
    (hkc : containsChar k ':' = false) (hkn : containsChar k '\n' = false)
    (hvc : containsChar v ':' = false) (hvn : containsChar v '\n' = false)
    (hvh : containsChar v '#' = false) (hvs : pyStrip v = v) :
    extractFromLine k false (paramLine k v) = some v := by
  unfold extractFromLine
  simp only [if_false, Bool.false_eq_true]
  rw [stripNl_paramLine hkn hvn]
  have hb : splitOnChar ':' (':' :: ' ' :: v) = [[], ' ' :: v] := by
    rw [splitOnChar_cons]
    simp only [show ((':' : Char) == ':') = true from rfl, if_true]
    rw [splitOnChar_sepfree ?hfree]
    case hfree =>
      intro x hx
      rcases List.mem_cons.mp hx with rfl | hxv
      · decide
      · exact containsChar_false_spec hvc x hxv
  rw [show paramLine k v = k ++ (':' :: ' ' :: v) from rfl]
  rw [splitOnChar_sepfree_append (':' :: ' ' :: v) (containsChar_false_spec hkc) hb]
  rw [List.append_nil]
  rw [nthPart_cons_one]
  simp only [Option.map_some']
  rw [containsChar_cons]
  simp only [show ((' ' : Char) == '#') = false from rfl, Bool.false_or, hvh]
  simp only [Bool.false_eq_true, if_false]
  rw [pyStrip_cons_space hvs]

theorem extract_keyed {k v : Str}
    (hkn : containsChar k '\n' = false) (hvn : containsChar v '\n' = false)
    (hsub : pySubstr (k ++ [':']) (' ' :: v) = false)
    (hvh : containsChar v '#' = false) (hvs : pyStrip v = v) :
    extractFromLine k true (paramLine k v) = some v := by
  unfold extractFromLine
  simp only [if_true]
  rw [stripNl_paramLine hkn hvn]
  obtain ⟨c, cs, hcs⟩ := List.exists_cons_of_ne_nil
    (show k ++ [':'] ≠ [] from by simp)
  rw [show paramLine k v = (k ++ [':']) ++ (' ' :: v) from by simp [paramLine]]
  rw [hcs]
  rw [show splitSubFull (c :: cs) ((c :: cs) ++ (' ' :: v)) =
    splitSub c cs ((c :: cs) ++ (' ' :: v)) from rfl]
  rw [splitSub_self_append c cs (' ' :: v) (by rw [← hcs]; exact hsub)]
  rw [nthPart_cons_one]
  simp only [Option.map_some']
  rw [containsChar_cons]
  simp only [show ((' ' : Char) == '#') = false from rfl, Bool.false_or, hvh]
  simp only [Bool.false_eq_true, if_false]
  rw [pyStrip_cons_space hvs]

theorem extract_bare_colon {k v1 v2 : Str}
    (hkc : containsChar k ':' = false) (hkn : containsChar k '\n' = false)
    (hv1c : containsChar v1 ':' = false) (hv1n : containsChar v1 '\n' = false)
    (hv2n : containsChar v2 '\n' = false)
    (hv1h : containsChar v1 '#' = false) (hv1s : pyStrip v1 = v1) :
    extractFromLine k false (paramLine k (v1 ++ ':' :: v2)) = some v1 := by
  unfold extractFromLine
  simp only [if_false, Bool.false_eq_true]
  rw [stripNl_paramLine hkn ?hvn]
  case hvn =>
    unfold containsChar at hv1c hv1n hv2n ⊢
    simp only [List.any_append, List.any_cons] at *
    simp [hv1n, hv2n]
  have hmid : splitOnChar ':' ((' ' :: v1) ++ (':' :: v2)) =
      (' ' :: v1) :: splitOnChar ':' v2 := by
    obtain ⟨h0, t, hht⟩ := List.exists_cons_of_ne_nil (splitOnChar_ne_nil ':' v2)
    have hb : splitOnChar ':' (':' :: v2) = [] :: splitOnChar ':' v2 := by
      rw [splitOnChar_cons]
      simp only [show ((':' : Char) == ':') = true from rfl, if_true]
    rw [splitOnChar_sepfree_append (':' :: v2) ?hfree hb]
    · simp
    case hfree =>
      intro x hx
      rcases List.mem_cons.mp hx with rfl | hxv
      · decide
      · exact containsChar_false_spec hv1c x hxv
  have hb2 : splitOnChar ':' (':' :: (' ' :: v1) ++ (':' :: v2)) =
      [] :: ((' ' :: v1) :: splitOnChar ':' v2) := by
    rw [List.cons_append, splitOnChar_cons]
    simp only [show ((':' : Char) == ':') = true from rfl, if_true]
    rw [hmid]
  rw [show paramLine k (v1 ++ ':' :: v2) = k ++ (':' :: (' ' :: v1) ++ (':' :: v2)) from by
    simp [paramLine]]
  rw [splitOnChar_sepfree_append _ (containsChar_false_spec hkc) hb2]
  rw [List.append_nil]
  rw [nthPart_cons_one]
  simp only [Option.map_some']
  rw [containsChar_cons]
  simp only [show ((' ' : Char) == '#') = false from rfl, Bool.false_or, hv1h]
  simp only [Bool.false_eq_true, if_false]
  rw [pyStrip_cons_space hv1s]

theorem extract_bare_comment {k v c : Str}
    (hkc : containsChar k ':' = false) (hkn : containsChar k '\n' = false)
    (hvc : containsChar v ':' = false) (hvn : containsChar v '\n' = false)
    (hcc : containsChar c ':' = false) (hcn : containsChar c '\n' = false)
    (hvh : containsChar v '#' = false) (hvs : pyStrip v = v) :
    extractFromLine k false (paramLine k (v ++ '#' :: c)) = some v := by
  unfold extractFromLine
  simp only [if_false, Bool.false_eq_true]
  rw [stripNl_paramLine hkn ?hvn2]
  case hvn2 =>
    unfold containsChar at hvn hcn ⊢
    simp only [List.any_append, List.any_cons] at *
    simp [hvn, hcn]
  have hb : splitOnChar ':' (':' :: ((' ' :: v) ++ ('#' :: c))) =
      [[], (' ' :: v) ++ ('#' :: c)] := by
    rw [splitOnChar_cons]
    simp only [show ((':' : Char) == ':') = true from rfl, if_true]
    rw [splitOnChar_sepfree ?hfree2]
    case hfree2 =>
      intro x hx
      rcases List.mem_append.mp hx with hxa | hxb
      · rcases List.mem_cons.mp hxa with rfl | hxv
        · decide
        · exact containsChar_false_spec hvc x hxv
      · rcases List.mem_cons.mp hxb with rfl | hxc
        · decide
        · exact containsChar_false_spec hcc x hxc
  rw [show paramLine k (v ++ '#' :: c) = k ++ (':' :: ((' ' :: v) ++ ('#' :: c))) from by
    simp [paramLine]]
  rw [splitOnChar_sepfree_append _ (containsChar_false_spec hkc) hb]
  rw [List.append_nil]
  rw [nthPart_cons_one]
  simp only [Option.map_some']
  have hhash : containsChar ((' ' :: v) ++ ('#' :: c)) '#' = true := by
    unfold containsChar
    simp
  rw [hhash]
  simp only [if_true]
  have hsplit : splitOnChar '#' ((' ' :: v) ++ ('#' :: c)) =
      (' ' :: v) :: splitOnChar '#' c := by
    have hb2 : splitOnChar '#' ('#' :: c) = [] :: splitOnChar '#' c := by
      rw [splitOnChar_cons]
      simp only [show (('#' : Char) == '#') = true from rfl, if_true]
    rw [splitOnChar_sepfree_append ('#' :: c) ?hfree3 hb2]
    · simp
    case hfree3 =>
      intro x hx
      rcases List.mem_cons.mp hx with rfl | hxv
      · decide
      · exact containsChar_false_spec hvh x hxv
  rw [hsplit]
  rw [show firstPart ((' ' :: v) :: splitOnChar '#' c) = ' ' :: v from rfl]
  rw [pyStrip_cons_space hvs]

/-! ## Literal evaluation lemmas -/

theorem numChar_not_space {c : Char} (h : numChar c = true) : (c == ' ') = false := by
  cases hc : c == ' '
  · rfl
  · have : c = ' ' := by simpa using hc
    subst this
    simp [numChar] at h

theorem numChar_not_comma {c : Char} (h : numChar c = true) : (c == ',') = false := by
  cases hc : c == ','
  · rfl
  · have : c = ',' := by simpa using hc
    subst this
    simp [numChar] at h

theorem all_numChar_spec {t : Str} (h : t.all numChar = true) : ∀ c ∈ t, numChar c = true :=
  fun c hc => List.all_eq_true.mp h c hc

theorem stripSpaces_of_numChar {t : Str} (h : t.all numChar = true) : stripSpaces t = t := by
  apply stripBy_eq_self_of
  intro c hc
  exact numChar_not_space (all_numChar_spec h c hc)

theorem stripSpaces_cons_space (t : Str) : stripSpaces (' ' :: t) = stripSpaces t := by
  unfold stripSpaces stripBy
  rw [List.dropWhile_cons]
  simp

theorem parseScalar_eq_of_strip {t u : Str} (h : stripSpaces t = stripSpaces u) :
    parseScalar t = parseScalar u := by
  unfold parseScalar
  rw [h]

/-- The components of `baseTok`. -/
theorem baseTok_spec {t : Str} (h : baseTok t = true) :
    t.isEmpty = false ∧ t.all numChar = true ∧ t.any isDigitChar = true ∧
    (t == "None".data) = false ∧ (pyLower t == "none".data) = false ∧
    headIs t '(' = false := by
  unfold baseTok at h
  simp only [Bool.and_eq_true, Bool.not_eq_true'] at h
  exact ⟨h.1.1.1.1.1, h.1.1.1.1.2, h.1.1.1.2, h.1.1.2, h.1.2, h.2⟩

theorem parseScalar_int {t : Str} (hb : baseTok t = true) (hi : intTok t = true) :
    parseScalar t = some (.pint t) := by
  obtain ⟨_, hall, _, hnone, _, _⟩ := baseTok_spec hb
  unfold parseScalar
  rw [stripSpaces_of_numChar hall]
  rw [if_neg (by simpa using hnone), if_pos hi]

theorem parseScalar_float {t : Str} (hb : baseTok t = true) (hf : floatTok t = true)
    (hni : intTok t = false) : parseScalar t = some (.pfloat t) := by
  obtain ⟨_, hall, _, hnone, _, _⟩ := baseTok_spec hb
  unfold parseScalar
  rw [stripSpaces_of_numChar hall]
  rw [if_neg (by simpa using hnone)]
  rw [hni]
  simp only [Bool.false_eq_true, if_false]
  rw [if_pos hf]

theorem parseScalar_scalTok {a : PyScalar} (h : scalTokOk a = true) :
    parseScalar (pyScalarStr a) = some a := by
  cases a with
  | pnone => simp [scalTokOk] at h
  | pstr t => simp [scalTokOk] at h
  | pint t =>
    unfold scalTokOk at h
    simp only [Bool.and_eq_true] at h
    exact parseScalar_int h.1 h.2
  | pfloat t =>
    unfold scalTokOk at h
    simp only [Bool.and_eq_true, Bool.not_eq_true'] at h
    exact parseScalar_float h.1.1 h.1.2 h.2

theorem scalTok_base {a : PyScalar} (h : scalTokOk a = true) :
    baseTok (pyScalarStr a) = true := by
  cases a with
  | pnone => simp [scalTokOk] at h
  | pstr t => simp [scalTokOk] at h
  | pint t => unfold scalTokOk at h; simp only [Bool.and_eq_true] at h; exact h.1
  | pfloat t => unfold scalTokOk at h; simp only [Bool.and_eq_true] at h; exact h.1.1

theorem scalTok_isNum {a : PyScalar} (h : scalTokOk a = true) : scalIsNum a = true := by
  cases a with
  | pnone => simp [scalTokOk] at h
  | pstr t => simp [scalTokOk] at h
  | pint t => rfl
  | pfloat t => rfl

theorem literalEval_scalar {t : Str} (hb : baseTok t = true) {a : PyScalar}
    (hp : parseScalar t = some a) : literalEval t = some (.scalar a) := by
  obtain ⟨_, hall, _, hnone, _, hpar⟩ := baseTok_spec hb
  unfold literalEval
  rw [if_neg (by simpa using hnone)]
  rw [hpar]
  simp only [Bool.false_and, Bool.false_eq_true, if_false]
  rw [splitOnChar_sepfree (fun c hc => numChar_not_comma (all_numChar_spec hall c hc))]
  simp [hp]

theorem literalEval_pair {a b : PyScalar} (ha : scalTokOk a = true) (hb : scalTokOk b = true) :
    literalEval (pyValStr (.tup [a, b])) = some (.tup [a, b]) := by
  have hsa := scalTok_base ha
  have hsb := scalTok_base hb
  obtain ⟨_, halla, _, _, _, _⟩ := baseTok_spec hsa
  obtain ⟨_, hallb, _, _, _, _⟩ := baseTok_spec hsb
  have hval : pyValStr (.tup [a, b]) =
      '(' :: ((pyScalarStr a ++ ',' :: ' ' :: pyScalarStr b) ++ [')']) := by
    simp [pyValStr, joinCommaSpace]
  rw [hval]
  unfold literalEval
  rw [if_neg (by intro h; injection h with h1 _; simp at h1)]
  have hhead : headIs ('(' :: ((pyScalarStr a ++ ',' :: ' ' :: pyScalarStr b) ++ [')'])) '(' =
      true := rfl
  have hlast : lastIs ('(' :: ((pyScalarStr a ++ ',' :: ' ' :: pyScalarStr b) ++ [')'])) ')' =
      true := by
    unfold lastIs
    rw [show ('(' :: ((pyScalarStr a ++ ',' :: ' ' :: pyScalarStr b) ++ [')'])) =
      ('(' :: (pyScalarStr a ++ ',' :: ' ' :: pyScalarStr b)) ++ [')'] from by simp]
    rw [List.getLast?_concat]
    rfl
  rw [hhead, hlast]
  simp only [Bool.and_self, if_true]
  rw [show ('(' :: ((pyScalarStr a ++ ',' :: ' ' :: pyScalarStr b) ++ [')'])).drop 1 =
    (pyScalarStr a ++ ',' :: ' ' :: pyScalarStr b) ++ [')'] from rfl]
  rw [List.dropLast_concat]
  have hsplit : splitOnChar ',' (pyScalarStr a ++ ',' :: ' ' :: pyScalarStr b) =
      [pyScalarStr a, ' ' :: pyScalarStr b] := by
    have hbsplit : splitOnChar ',' (',' :: ' ' :: pyScalarStr b) =
        [[], ' ' :: pyScalarStr b] := by
      rw [splitOnChar_cons]
      simp only [show ((',' : Char) == ',') = true from rfl, if_true]
      rw [splitOnChar_sepfree ?hfr]
      case hfr =>
        intro x hx
        rcases List.mem_cons.mp hx with h1 | h1
        · subst h1; decide
        · exact numChar_not_comma (all_numChar_spec hallb x h1)
    rw [splitOnChar_sepfree_append _
      (fun c hc => numChar_not_comma (all_numChar_spec halla c hc)) hbsplit]
    simp
  rw [hsplit]
  have hpa := parseScalar_scalTok ha
  have hpb : parseScalar (' ' :: pyScalarStr b) = some b := by
    rw [parseScalar_eq_of_strip (stripSpaces_cons_space (pyScalarStr b))]
    exact parseScalar_scalTok hb
  simp [parseScalars, hpa, hpb]

/-! ## Coercion evaluation on valid stored values -/

theorem load_range_pnone :
    load_range (pyValStr (.scalar .pnone)) = .ok (.scalar .pnone, false) := rfl

theorem pyLower_cons (x : Char) (t : Str) : pyLower (x :: t) = x.toLower :: pyLower t := rfl

theorem load_range_pair {a b : PyScalar} (ha : scalTokOk a = true) (hb : scalTokOk b = true) :
    load_range (pyValStr (.tup [a, b])) = .ok (.tup [a, b], false) := by
  have hval : pyValStr (.tup [a, b]) =
      '(' :: ((pyScalarStr a ++ ',' :: ' ' :: pyScalarStr b) ++ [')']) := by
    simp [pyValStr, joinCommaSpace]
  obtain ⟨_, halla, hdiga, _, _, _⟩ := baseTok_spec (scalTok_base ha)
  unfold load_range
  rw [if_neg ?hemp]
  case hemp => rw [hval]; simp
  rw [if_neg ?hnone]
  case hnone =>
    rw [hval]
    simp only [Bool.or_eq_true, decide_eq_true_eq]
    push_neg
    refine ⟨fun h => ?_, fun h => ?_⟩
    · injection h with h1 _
      exact absurd h1 (by decide)
    · rw [pyLower_cons] at h
      injection h with h1 _
      exact absurd h1 (by decide)
  rw [if_pos ?hdig]
  case hdig =>
    rw [hval]
    simp only [List.any_cons, List.any_append]
    simp [hdiga]
  rw [literalEval_pair ha hb]
  simp only [List.length_cons, List.length_nil]
  rw [if_pos (by omega)]
  rw [scalTok_isNum ha, scalTok_isNum hb]
  simp

theorem load_negmask_pnone : load_negmask (pyScalarStr .pnone) = .ok (.pnone, false) := rfl

theorem load_negmask_float {t : Str} (hb : baseTok t = true) (hf : floatTok t = true)
    (hni : intTok t = false) : load_negmask t = .ok (.pfloat t, false) := by
  obtain ⟨hemp, hall, hdig, hnone, hlow, hpar⟩ := baseTok_spec hb
  unfold load_negmask
  rw [if_neg (by simp [hemp])]
  rw [if_neg ?hnon]
  case hnon =>
    simp only [Bool.or_eq_true, decide_eq_true_eq]
    push_neg
    refine ⟨fun h => ?_, fun h => ?_⟩
    · rw [h] at hlow
      exact absurd hlow (by decide)
    · rw [h] at hlow
      simp at hlow
  rw [if_pos hdig]
  rw [literalEval_scalar hb (parseScalar_float hb hf hni)]

/-! ## Accepted-value case lemmas -/

theorem contains_spec {l : List Str} {s : Str} (h : l.contains s = true) : s ∈ l := by
  obtain ⟨x, hx, hbeq⟩ := List.contains_iff_exists_mem_beq.mp h
  have hxs : s = x := by simpa using hbeq
  subst hxs
  exact hx

theorem src_cases {s : Str} (h : src_accepted.contains s = true) :
    s = "NSLS-II".data ∨ s = "APS".data ∨ s = "SSRL".data := by
  have := contains_spec h
  simpa [src_accepted] using this

theorem meth_cases {s : Str} (h : intmethod_accepted.contains s = true) :
    s = "no".data ∨ s = "full".data ∨ s = "pseudo".data ∨ s = "bbox".data := by
  have := contains_spec h
  simpa [intmethod_accepted] using this

theorem unit_cases {s : Str} (h : xunit_accepted.contains s = true) :
    s = "2th_deg".data ∨ s = "2th_rad".data ∨ s = "q_nm^-1".data ∨ s = "q_A^-1".data ∨
      s = "q_a^-1".data ∨ s = "r_mm".data := by
  have := contains_spec h
  simpa [xunit_accepted] using this

theorem errm_cases {s : Str} (h : errm_stored.contains s = true) :
    s = "none".data ∨ s = "poisson".data ∨ s = "None".data := by
  have := contains_spec h
  simpa [errm_stored] using this

/-- Hygiene facts of a value needed for bare-colon extraction. -/
def bareHyg (v : Str) : Prop :=
  containsChar v ':' = false ∧ containsChar v '\n' = false ∧
    containsChar v '#' = false ∧ pyStrip v = v

theorem src_hyg {s : Str} (h : src_accepted.contains s = true) : bareHyg s := by
  rcases src_cases h with rfl | rfl | rfl <;>
    exact ⟨by decide, by decide, by decide, by decide⟩

theorem meth_hyg {s : Str} (h : intmethod_accepted.contains s = true) : bareHyg s := by
  rcases meth_cases h with rfl | rfl | rfl | rfl <;>
    exact ⟨by decide, by decide, by decide, by decide⟩

theorem unit_hyg {s : Str} (h : xunit_accepted.contains s = true) : bareHyg s := by
  rcases unit_cases h with rfl | rfl | rfl | rfl | rfl | rfl <;>
    exact ⟨by decide, by decide, by decide, by decide⟩

theorem errm_hyg {s : Str} (h : errm_stored.contains s = true) : bareHyg s := by
  rcases errm_cases h with rfl | rfl | rfl <;>
    exact ⟨by decide, by decide, by decide, by decide⟩

theorem load_synsrc_ok {s : Str} (h : src_accepted.contains s = true) :
    ∃ e, load_synsrc s = .ok (s, e) := by
  rcases src_cases h with rfl | rfl | rfl
  · exact ⟨".tiff".data, rfl⟩
  · exact ⟨".tif".data, rfl⟩
  · exact ⟨".tif".data, rfl⟩

theorem load_intmethod_ok {s : Str} (h : intmethod_accepted.contains s = true) :
    load_intmethod s = (s, false) := by
  rcases meth_cases h with rfl | rfl | rfl | rfl <;> decide

theorem load_xunit_ok {s : Str} (h : xunit_accepted.contains s = true) :
    load_xunit s = (pyLower s, false) := by
  rcases unit_cases h with rfl | rfl | rfl | rfl | rfl | rfl <;> decide

theorem unit_lower_idem {s : Str} (h : xunit_accepted.contains s = true) :
    pyLower (pyLower s) = pyLower s := by
  rcases unit_cases h with rfl | rfl | rfl | rfl | rfl | rfl <;> decide

theorem load_errormodel_ok {s : Str} (h : errm_stored.contains s = true) :
    load_errormodel s = (pyLower s, false) := by
  rcases errm_cases h with rfl | rfl | rfl <;> decide

theorem errm_lower_idem {s : Str} (h : errm_stored.contains s = true) :
    pyLower (pyLower s) = pyLower s := by
  rcases errm_cases h with rfl | rfl | rfl <;> decide

/-! ## Validity destructurers -/

theorem valueHygiene_spec {v : Str} (h : valueHygiene v = true) :
    containsChar v '\n' = false ∧ containsChar v '#' = false ∧ pyStrip v = v := by
  unfold valueHygiene at h
  simp only [Bool.and_eq_true, Bool.not_eq_true', beq_iff_eq] at h
  exact ⟨h.1.1, h.1.2, h.2⟩

theorem bareValueOk_spec {v : Str} (h : bareValueOk v = true) : bareHyg v := by
  unfold bareValueOk at h
  simp only [Bool.and_eq_true, Bool.not_eq_true'] at h
  obtain ⟨hh, hc⟩ := h
  obtain ⟨h1, h2, h3⟩ := valueHygiene_spec hh
  exact ⟨hc, h1, h2, h3⟩

theorem keyedValueOk_spec {k v : Str} (h : keyedValueOk k v = true) :
    containsChar v '\n' = false ∧ pySubstr (k ++ [':']) (' ' :: v) = false ∧
      containsChar v '#' = false ∧ pyStrip v = v := by
  unfold keyedValueOk at h
  simp only [Bool.and_eq_true, Bool.not_eq_true'] at h
  obtain ⟨hh, hs⟩ := h
  obtain ⟨h1, h2, h3⟩ := valueHygiene_spec hh
  exact ⟨h1, hs, h2, h3⟩

theorem load_range_valid {r : PyVal} (h : rangeValOk r = true) :
    load_range (pyValStr r) = .ok (r, false) := by
  cases r with
  | scalar v =>
    cases v with
    | pnone => exact load_range_pnone
    | pint t => simp [rangeValOk] at h
    | pfloat t => simp [rangeValOk] at h
    | pstr t => simp [rangeValOk] at h
  | tup xs =>
    match xs with
    | [] => simp [rangeValOk] at h
    | [a] => simp [rangeValOk] at h
    | a :: b :: c :: rest => simp [rangeValOk] at h
    | [a, b] =>
      unfold rangeValOk at h
      simp only [Bool.and_eq_true] at h
      exact load_range_pair h.1 h.2

theorem load_negmask_valid {v : PyScalar} (h : negValOk v = true) :
    load_negmask (pyScalarStr v) = .ok (v, false) := by
  cases v with
  | pnone => exact load_negmask_pnone
  | pint t => simp [negValOk] at h
  | pstr t => simp [negValOk] at h
  | pfloat t =>
    unfold negValOk at h
    simp only [Bool.and_eq_true, Bool.not_eq_true'] at h
    exact load_negmask_float h.1.1 h.1.2 h.2

theorem load_radpoints_str (i : Int) : load_radpoints (pyStrInt i) = .ok i := by
  unfold load_radpoints
  rw [pyInt_pyStrInt]

theorem extractRaw_eval {lines : List Str} {k : Str} {keyed : Bool} {n : Nat} {line v : Str}
    (hloc : locateKey lines k = .found n) (hline : nthLine lines n = some line)
    (hx : extractFromLine k keyed line = some v) : extractRaw lines k keyed = .ok v := by
  unfold extractRaw
  rw [hloc]
  simp only [hline, hx]

/-! ## The round trip of the codec on a valid configuration -/

/-- The configuration the load path reconstructs from a serialized valid
configuration: identical except that `xunit` and `errormodel` come back
lower-cased. -/
def normalizeCfg (cfg : IntegrationConfig) : IntegrationConfig :=
  { cfg with xunit := pyLower cfg.xunit, errormodel := pyLower cfg.errormodel }

theorem loadInt_roundtrip (fs : List Str) (cfg : IntegrationConfig) (m : Meta)
    (hv : cfgValid fs cfg m = true) (hmask : cfg.fullmaskf.isSome = true) :
    loadInt fs (serializeLines cfg m) = .ok (normalizeCfg cfg) := by
  unfold cfgValid at hv
  simp only [Bool.and_eq_true] at hv
  obtain ⟨⟨⟨⟨⟨⟨⟨⟨⟨⟨⟨⟨⟨⟨⟨⟨⟨⟨⟨⟨⟨⟨⟨⟨⟨⟨⟨h1, h2⟩, h3⟩, h4⟩, h5⟩, h6⟩, h7⟩, h8⟩, h9⟩, h10⟩, h11⟩, h12⟩, h13⟩, h14⟩, h15⟩, h16⟩, h17⟩, h18⟩, h19⟩, h20⟩, h21⟩, h22⟩, h23⟩, h24⟩, h25⟩, h26⟩, h27⟩, h28⟩ := hv
  simp only [metaOk, Bool.and_eq_true, Bool.not_eq_true'] at h1
  obtain ⟨⟨⟨⟨⟨⟨⟨⟨m1, m2⟩, m3⟩, m4⟩, m5⟩, m6⟩, m7⟩, m8⟩, m9⟩ := h1
  obtain ⟨p, hp⟩ := Option.isSome_iff_exists.mp hmask
  have hstart := editStart_serial cfg m m4 m6 m8
  have hend := editEnd_serial (firstContaining_end_serial cfg m m5 m7 m9
    h2 h3 h4 h5 h6 h7 h8 h9 h10 h11 h12)
  have lsrc := locate_src cfg m hstart hend
  have ldir := locate_dir cfg m hstart hend h2
  have lponi := locate_poni cfg m hstart hend h2 h3
  have lmask := locate_mask cfg m hstart hend h2 h3 h4
  have lmeth := locate_meth cfg m hstart hend h2 h3 h4 h5
  have lunit := locate_unit cfg m hstart hend h2 h3 h4 h5 h6
  have lpts := locate_pts cfg m hstart hend h2 h3 h4 h5 h6 h7
  have lradr := locate_radr cfg m hstart hend h2 h3 h4 h5 h6 h7 h8
  have lazimr := locate_azimr cfg m hstart hend h2 h3 h4 h5 h6 h7 h8 h9
  have lnegm := locate_negm cfg m hstart hend h2 h3 h4 h5 h6 h7 h8 h9 h10
  have lerrm := locate_errm cfg m hstart hend h2 h3 h4 h5 h6 h7 h8 h9 h10 h11
  have hany : (intKeys.any fun k => locateKey (serializeLines cfg m) k == LocVal.na) = false := by
    simp [intKeys, lsrc, ldir, lponi, lmask, lmeth, lunit, lpts, lradr, lazimr, lnegm, lerrm]
  obtain ⟨hysrc1, hysrc2, hysrc3, hysrc4⟩ := src_hyg h13
  have esrc : extractRaw (serializeLines cfg m) key_src false = .ok cfg.synsrc :=
    extractRaw_eval lsrc rfl
      (show extractFromLine key_src false (srcLine cfg) = some cfg.synsrc from
        extract_bare (by decide) (by decide) hysrc1 hysrc2 hysrc3 hysrc4)
  obtain ⟨hyd1, hyd2, hyd3, hyd4⟩ := keyedValueOk_spec h14
  have edir : extractRaw (serializeLines cfg m) key_dir true = .ok cfg.oneDdir :=
    extractRaw_eval ldir rfl
      (show extractFromLine key_dir true (dirLine cfg) = some cfg.oneDdir from
        extract_keyed (by decide) hyd1 hyd2 hyd3 hyd4)
  obtain ⟨hyp1, hyp2, hyp3, hyp4⟩ := keyedValueOk_spec h15
  have eponi : extractRaw (serializeLines cfg m) key_poni true = .ok cfg.fullponif :=
    extractRaw_eval lponi rfl
      (show extractFromLine key_poni true (poniLine cfg) = some cfg.fullponif from
        extract_keyed (by decide) hyp1 hyp2 hyp3 hyp4)
  rw [hp] at h16
  unfold maskOk at h16
  simp only [Bool.and_eq_true] at h16
  obtain ⟨⟨hmky, hmisf⟩, hmext⟩ := h16
  obtain ⟨hym1, hym2, hym3, hym4⟩ := keyedValueOk_spec hmky
  have emask : extractRaw (serializeLines cfg m) key_mask true = .ok p := by
    apply extractRaw_eval lmask rfl
    show extractFromLine key_mask true (maskLine cfg) = some p
    rw [show maskLine cfg = paramLine key_mask p from by rw [maskLine, hp]; rfl]
    exact extract_keyed (by decide) hym1 hym2 hym3 hym4
  obtain ⟨hym5, hym6, hym7, hym8⟩ := meth_hyg h17
  have emeth : extractRaw (serializeLines cfg m) key_meth false = .ok cfg.intmethod :=
    extractRaw_eval lmeth rfl
      (show extractFromLine key_meth false (methLine cfg) = some cfg.intmethod from
        extract_bare (by decide) (by decide) hym5 hym6 hym7 hym8)
  obtain ⟨hyu1, hyu2, hyu3, hyu4⟩ := unit_hyg h18
  have eunit : extractRaw (serializeLines cfg m) key_unit false = .ok cfg.xunit :=
    extractRaw_eval lunit rfl
      (show extractFromLine key_unit false (unitLine cfg) = some cfg.xunit from
        extract_bare (by decide) (by decide) hyu1 hyu2 hyu3 hyu4)
  obtain ⟨hyt1, hyt2, hyt3, hyt4⟩ := bareValueOk_spec h20
  have epts : extractRaw (serializeLines cfg m) key_pts false = .ok (pyStrInt cfg.rad_points) :=
    extractRaw_eval lpts rfl
      (show extractFromLine key_pts false (ptsLine cfg) = some (pyStrInt cfg.rad_points) from
        extract_bare (by decide) (by decide) hyt1 hyt2 hyt3 hyt4)
  obtain ⟨hyr1, hyr2, hyr3, hyr4⟩ := bareValueOk_spec h22
  have eradr : extractRaw (serializeLines cfg m) key_radr false =
      .ok (pyValStr cfg.rad_range) :=
    extractRaw_eval lradr rfl
      (show extractFromLine key_radr false (radrLine cfg) = some (pyValStr cfg.rad_range) from
        extract_bare (by decide) (by decide) hyr1 hyr2 hyr3 hyr4)
  obtain ⟨hya1, hya2, hya3, hya4⟩ := bareValueOk_spec h24
  have eazimr : extractRaw (serializeLines cfg m) key_azimr false =
      .ok (pyValStr cfg.azim_range) :=
    extractRaw_eval lazimr rfl
      (show extractFromLine key_azimr false (azimrLine cfg) = some (pyValStr cfg.azim_range) from
        extract_bare (by decide) (by decide) hya1 hya2 hya3 hya4)
  obtain ⟨hyn1, hyn2, hyn3, hyn4⟩ := bareValueOk_spec h26
  have enegm : extractRaw (serializeLines cfg m) key_negm false =
      .ok (pyScalarStr cfg.neg_mask) :=
    extractRaw_eval lnegm rfl
      (show extractFromLine key_negm false (negmLine cfg) = some (pyScalarStr cfg.neg_mask) from
        extract_bare (by decide) (by decide) hyn1 hyn2 hyn3 hyn4)
  obtain ⟨hye1, hye2, hye3, hye4⟩ := errm_hyg h19
  have eerrm : extractRaw (serializeLines cfg m) key_errm false = .ok cfg.errormodel :=
    extractRaw_eval lerrm rfl
      (show extractFromLine key_errm false (errmLine cfg) = some cfg.errormodel from
        extract_bare (by decide) (by decide) hye1 hye2 hye3 hye4)
  have hmc : maskCheck fs p = .ok (some p) := by
    unfold maskCheck
    simp only [hmisf, if_true]
    rw [hmext]
    rfl
  obtain ⟨e, hsyn⟩ := load_synsrc_ok h13
  have hmeth2 := load_intmethod_ok h17
  have hunit2 := load_xunit_ok h18
  have herrm2 := load_errormodel_ok h19
  have hpts2 := load_radpoints_str cfg.rad_points
  have hradr2 := load_range_valid h21
  have hazimr2 := load_range_valid h23
  have hnegm2 := load_negmask_valid h25
  unfold loadInt
  rw [hany]
  simp only [Bool.false_eq_true, if_false]
  rw [esrc, edir, eponi, emask, emeth, eunit, epts, eradr, eazimr, enegm, eerrm]
  simp only [bind, Except.bind, guardE, h27, h28, Bool.not_true, Bool.false_eq_true,
    if_false, hmc, hsyn, hmeth2, hunit2, herrm2, hpts2, hradr2, hazimr2, hnegm2, pure,
    Except.pure]
  rw [normalizeCfg, hp]

theorem roundtrip_eqModCase (cfg : IntegrationConfig)
    (hu : xunit_accepted.contains cfg.xunit = true)
    (he : errm_stored.contains cfg.errormodel = true) :
    cfgEqModCase (normalizeCfg cfg) cfg := by
  unfold cfgEqModCase normalizeCfg
  refine ⟨rfl, rfl, rfl, rfl, rfl, ?_, rfl, rfl, rfl, rfl, ?_⟩
  · exact unit_lower_idem hu
  · exact errm_lower_idem he

/-! ## Reconciliation lemmas -/

theorem mkdirAll_ok_eq {outcome : Str → MkOutcome} :
    ∀ {dirs folders : List Str}, mkdirAll outcome dirs = .ok folders → folders = dirs := by
  intro dirs
  induction dirs with
  | nil => intro folders h; simpa [mkdirAll] using h.symm
  | cons d rest ih =>
    intro folders h
    unfold mkdirAll at h
    cases ho : outcome d with
    | failedOther => rw [ho] at h; simp at h
    | created =>
      rw [ho] at h
      cases hr : mkdirAll outcome rest with
      | error e => rw [hr] at h; simp [Except.map] at h
      | ok fs2 =>
        rw [hr] at h
        simp only [Except.map] at h
        injection h with h2
        rw [← h2, ih hr]
    | already =>
      rw [ho] at h
      cases hr : mkdirAll outcome rest with
      | error e => rw [hr] at h; simp [Except.map] at h
      | ok fs2 =>
        rw [hr] at h
        simp only [Except.map] at h
        injection h with h2
        rw [← h2, ih hr]

theorem mkdirAll_no_failure {outcome : Str → MkOutcome} :
    ∀ {dirs : List Str}, (∀ d ∈ dirs, outcome d ≠ .failedOther) →
      mkdirAll outcome dirs = .ok dirs := by
  intro dirs
  induction dirs with
  | nil => intro _; rfl
  | cons d rest ih =>
    intro h
    unfold mkdirAll
    cases ho : outcome d with
    | failedOther => exact absurd ho (h d (by simp))
    | created => rw [ih (fun x hx => h x (by simp [hx]))]; rfl
    | already => rw [ih (fun x hx => h x (by simp [hx]))]; rfl

theorem mkdirAll_first_failure {outcome : Str → MkOutcome} :
    ∀ {dirs : List Str} {d : Str},
      dirs.find? (fun x => outcome x == MkOutcome.failedOther) = some d →
      mkdirAll outcome dirs = .error d := by
  intro dirs
  induction dirs with
  | nil => intro d h; simp at h
  | cons x rest ih =>
    intro d h
    rw [List.find?_cons] at h
    unfold mkdirAll
    cases ho : outcome x with
    | failedOther =>
      rw [ho] at h
      simp at h
      rw [h]
    | created =>
      rw [ho] at h
      simp only [show (MkOutcome.created == MkOutcome.failedOther) = false from rfl] at h
      rw [ih h]
      rfl
    | already =>
      rw [ho] at h
      simp only [show (MkOutcome.already == MkOutcome.failedOther) = false from rfl] at h
      rw [ih h]
      rfl

/-! ## Missing-key lemmas -/

theorem boundedScan_not_unset (k : Str) (lo hi : Nat) :
    ∀ i lines, boundedScan k lo hi i lines ≠ .unset := by
  intro i lines
  induction lines generalizing i with
  | nil => simp [boundedScan]
  | cons l rest ih =>
    rw [boundedScan]
    split
    · simp
    · exact ih (i + 1)

theorem fallbackScan_not_unset (k : Str) :
    ∀ i l rest, fallbackScan k i (l :: rest) ≠ .unset := by
  intro i l rest
  rw [fallbackScan]
  cases hh : fallbackHit k l
  · simp only [Bool.false_eq_true, if_false]
    cases h : fallbackScan k (i + 1) rest <;> simp
  · simp

theorem locateKey_not_unset {lines : List Str} (h : lines ≠ []) (k : Str) :
    locateKey lines k ≠ .unset := by
  obtain ⟨l, rest, rfl⟩ := List.exists_cons_of_ne_nil h
  unfold locateKey
  split
  · exact boundedScan_not_unset k _ _ 0 (l :: rest)
  · exact fallbackScan_not_unset k 0 l rest

theorem unlocatedKeys_eq_na {lines : List Str} (h : lines ≠ []) :
    unlocatedKeys lines = intKeys.filter (fun k => locateKey lines k == LocVal.na) := by
  unfold unlocatedKeys
  apply List.filter_congr
  intro k _
  have hne := locateKey_not_unset h k
  cases hloc : locateKey lines k with
  | found n => rfl
  | na => rfl
  | unset => exact absurd hloc hne

theorem loadInt_missing {fs lines : List Str} (hne : lines ≠ [])
    (hmiss : unlocatedKeys lines ≠ []) :
    loadInt fs lines = .error (.missingKeys (unlocatedKeys lines)) := by
  have heq := unlocatedKeys_eq_na hne
  have hany : (intKeys.any fun k => locateKey lines k == LocVal.na) = true := by
    rw [heq] at hmiss
    rcases List.exists_cons_of_ne_nil hmiss with ⟨k, rest, hk⟩
    have hkmem : k ∈ intKeys.filter (fun k => locateKey lines k == LocVal.na) := by
      rw [hk]; simp
    have := List.of_mem_filter hkmem
    exact List.any_eq_true.mpr ⟨k, List.mem_of_mem_filter hkmem, this⟩
  unfold loadInt
  rw [hany]
  simp only [if_true]
  rw [← heq]

/-! ## Batch counter lemmas -/

theorem foldl_integrateFile (files : List Str) :
    ∀ st : BatchState,
      (files.foldl integrateFile st).totalintcount = st.totalintcount + files.length ∧
      (files.foldl integrateFile st).intedimages.length =
        st.intedimages.length + files.length := by
  induction files with
  | nil => intro st; simp
  | cons f rest ih =>
    intro st
    rw [List.foldl_cons]
    obtain ⟨h1, h2⟩ := ih (integrateFile st f)
    constructor
    · rw [h1]; simp [integrateFile]; omega
    · rw [h2]; simp [integrateFile]; omega

theorem runBatch_counts (image_extension : Str) (listings : List (List Str)) :
    ∀ st : BatchState,
      (runBatch image_extension listings st).totalintcount =
        st.totalintcount + countImages image_extension listings ∧
      (runBatch image_extension listings st).intedimages.length =
        st.intedimages.length + countImages image_extension listings := by
  induction listings with
  | nil => intro st; simp [runBatch, countImages]
  | cons l rest ih =>
    intro st
    unfold runBatch at ih ⊢
    rw [List.foldl_cons]
    obtain ⟨h1, h2⟩ := ih (integrateDir image_extension st l)
    obtain ⟨g1, g2⟩ := foldl_integrateFile (l.filter (fun f => pyEndswith f image_extension)) st
    constructor
    · rw [h1]
      unfold integrateDir
      rw [g1]
      simp [countImages]
      omega
    · rw [h2]
      unfold integrateDir
      rw [g2]
      simp [countImages]
      omega

/-! ## Store lemmas -/

theorem storeRead_write (store : List (Str × Str)) (path content : Str) :
    storeRead (storeWrite store path content) path = some content := by
  unfold storeRead storeWrite
  rw [List.find?_cons]
  simp

/-! # Claim theorems -/

set_option maxRecDepth 200000

theorem cfgValid_unit {fs : List Str} {cfg : IntegrationConfig} {m : Meta}
    (hv : cfgValid fs cfg m = true) : xunit_accepted.contains cfg.xunit = true := by
  unfold cfgValid at hv
  simp only [Bool.and_eq_true] at hv
  exact hv.1.1.1.1.1.1.1.1.1.1.2

theorem cfgValid_errm {fs : List Str} {cfg : IntegrationConfig} {m : Meta}
    (hv : cfgValid fs cfg m = true) : errm_stored.contains cfg.errormodel = true := by
  unfold cfgValid at hv
  simp only [Bool.and_eq_true] at hv
  exact hv.1.1.1.1.1.1.1.1.1.2

/-- C1 (amended): for every valid IntegrationConfig whose mask file is
present (exists with an accepted extension), serializing it to the .int
format and parsing the result yields a configuration equal to the
original up to case-normalization of the enum fields.  (For an absent
mask file the load path instead raises - see the counterexample.) -/
theorem C1_roundtrip_amended (fs : List Str) (cfg : IntegrationConfig) (m : Meta)
    (hv : cfgValid fs cfg m = true) (hm : cfg.fullmaskf.isSome = true) :
    ∃ out, loadInt fs (serializeLines cfg m) = Except.ok out ∧ cfgEqModCase out cfg :=
  ⟨normalizeCfg cfg, loadInt_roundtrip fs cfg m hv hm,
   roundtrip_eqModCase cfg (cfgValid_unit hv) (cfgValid_errm hv)⟩

/-- C1 witness: a concrete valid configuration with a present mask file
round-trips. -/
theorem C1_roundtrip_witness :
    cfgValid fsW cfgW mW = true ∧ cfgW.fullmaskf.isSome = true ∧
      ∃ out, loadInt fsW (serializeLines cfgW mW) = Except.ok out ∧ cfgEqModCase out cfgW :=
  ⟨by decide, by decide, C1_roundtrip_amended fsW cfgW mW (by decide) (by decide)⟩

/-- C1 counterexample: the claim as stated is false - a valid
configuration with an absent mask file does not round-trip; the load
path raises AttributeError (None.endswith) at the mask-extension
check. -/
theorem C1_roundtrip_counterexample :
    cfgValid fsW cfgAbsent mW = true ∧
      loadInt fsW (serializeLines cfgAbsent mW) = Except.error LoadErr.attrErr := by
  exact ⟨by decide, by decide⟩

/-- C2: the claim is right and the code wrong - when the mask path does
not name an existing file the code sets the variable to None and the
very next line calls None.endswith, raising AttributeError instead of
downgrading; the wrong-extension case (second conjunct) does downgrade
to no mask without error. -/
theorem C2_mask_crash :
    maskCheck fsW "data/missing.tif".data = Except.error LoadErr.attrErr ∧
      maskCheck ["data/mask.txt".data] "data/mask.txt".data = Except.ok none := by
  exact ⟨by decide, by decide⟩

/-- C3 counterexample: in the .int-load path an unrecognized split
method is kept verbatim (with a warning), not coerced to the default
full. -/
theorem C3_fallback_counterexample :
    load_intmethod "garbage".data = ("garbage".data, true) ∧
      ("garbage".data : Str) ≠ "full".data := by
  exact ⟨by decide, by decide⟩

/-- C3 (amended): in the guided path each of splitMethod, unit and
errorModel coerces an unrecognized non-empty value to its default with
a warning, never raising; in the .int-load path errorModel behaves the
same (default the literal None), but splitMethod and unit only warn and
keep the unrecognized raw value. -/
theorem C3_fallback_amended (s t u : Str)
    (hs0 : s.isEmpty = false)
    (hs1 : intmethod_accepted.contains s = false)
    (hs2 : intmethod_accepted.contains (pyLower s) = false)
    (ht0 : t.isEmpty = false)
    (ht1 : xunit_accepted.contains t = false)
    (ht2 : xunit_accepted.contains (pyLower t) = false)
    (ht3 : pyLower t ≠ "tth".data)
    (ht4 : pyLower t ≠ "q".data)
    (hu0 : u.isEmpty = false)
    (hu1 : errormodel_accepted.contains u = false)
    (hu2 : errormodel_accepted.contains (pyLower u) = false) :
    guided_intmethod s = (d_intmethod, true) ∧ load_intmethod s = (s, true) ∧
    guided_xunit t = (d_xunit, true) ∧ load_xunit t = (t, true) ∧
    guided_errormodel u = (d_errormodel, true) ∧
    load_errormodel u = (d_errormodel, true) := by
  have hs1' : s ∉ intmethod_accepted := by simpa using hs1
  have hs2' : pyLower s ∉ intmethod_accepted := by simpa using hs2
  have ht1' : t ∉ xunit_accepted := by simpa using ht1
  have ht2' : pyLower t ∉ xunit_accepted := by simpa using ht2
  have hu1' : u ∉ errormodel_accepted := by simpa using hu1
  have hu2' : pyLower u ∉ errormodel_accepted := by simpa using hu2
  refine ⟨?_, ?_, ?_, ?_, ?_, ?_⟩
  · unfold guided_intmethod
    simp [hs0, hs1', hs2']
  · unfold load_intmethod
    simp [hs1', hs2']
  · unfold guided_xunit
    simp [ht0, ht1', ht2', ht3, ht4]
  · unfold load_xunit
    simp [ht1', ht2', ht3, ht4]
  · unfold guided_errormodel
    simp [hu0, hu1', hu2']
  · unfold load_errormodel
    simp [hu0, hu1', hu2']

/-- C3 witness: the amended behavior at the value garbage. -/
theorem C3_fallback_witness :
    guided_intmethod "garbage".data = (d_intmethod, true) ∧
    load_intmethod "garbage".data = ("garbage".data, true) ∧
    guided_xunit "garbage".data = (d_xunit, true) ∧
    load_xunit "garbage".data = ("garbage".data, true) ∧
    guided_errormodel "garbage".data = (d_errormodel, true) ∧
    load_errormodel "garbage".data = (d_errormodel, true) :=
  C3_fallback_amended "garbage".data "garbage".data "garbage".data
    (by decide) (by decide) (by decide) (by decide) (by decide) (by decide)
    (by decide) (by decide) (by decide) (by decide) (by decide)

/-- C4 (amended): when no creation fails the run proceeds with every
name recorded; when some creation fails for a reason other than the
directory existing, the uncaught exception aborts the run at the first
failing name, before any integration, and only that name is reported;
the mismatch-report abort of the reconciliation check is unreachable. -/
theorem C4_reconcile_amended (outcome : Str → MkOutcome) (dirs : List Str) :
    (dirs.find? (fun x => outcome x == MkOutcome.failedOther) = none →
        reconcile outcome dirs = .proceed dirs) ∧
    (∀ d, dirs.find? (fun x => outcome x == MkOutcome.failedOther) = some d →
        reconcile outcome dirs = .abortRaise d ∧
          reportedNames (reconcile outcome dirs) = [d]) ∧
    (∀ ms, reconcile outcome dirs ≠ .abortMismatch ms) := by
  refine ⟨?_, ?_, ?_⟩
  · intro h
    have hno : ∀ d ∈ dirs, outcome d ≠ .failedOther := by
      intro d hd hcon
      have := List.find?_eq_none.mp h d hd
      simp [hcon] at this
    unfold reconcile
    rw [mkdirAll_no_failure hno]
    simp
  · intro d h
    have hr : reconcile outcome dirs = .abortRaise d := by
      unfold reconcile
      rw [mkdirAll_first_failure h]
    exact ⟨hr, by rw [hr]; rfl⟩
  · intro ms hcon
    unfold reconcile at hcon
    cases hmk : mkdirAll outcome dirs with
    | error e => rw [hmk] at hcon; simp at hcon
    | ok folders =>
      rw [hmk] at hcon
      rw [mkdirAll_ok_eq hmk] at hcon
      simp at hcon

/-- C4 witness: a run with no failures proceeds; a run whose first
creation fails aborts at that name. -/
theorem C4_reconcile_witness :
    reconcile outNoFail ["a".data, "b".data] = .proceed ["a".data, "b".data] ∧
      reconcile outAllFail ["a".data, "b".data] = .abortRaise "a".data :=
  ⟨(C4_reconcile_amended outNoFail ["a".data, "b".data]).1 (by decide),
   ((C4_reconcile_amended outAllFail ["a".data, "b".data]).2.1 "a".data (by decide)).1⟩

/-- C4 counterexample: with two names both failing to mirror, the run
reports only the first - not every failed name as the claim states. -/
theorem C4_reconcile_counterexample :
    reportedNames (reconcile outAllFail ["a".data, "b".data]) = ["a".data] ∧
      (["a".data, "b".data].filter fun d => outAllFail d == MkOutcome.failedOther) =
        ["a".data, "b".data] ∧
      (["a".data] : List Str) ≠ ["a".data, "b".data] := by
  exact ⟨by decide, by decide, by decide⟩

/-- C5 (amended): for every file with at least one line, if any of the
11 required keys cannot be located, the parse aborts reporting exactly
the unlocated keys and produces no configuration.  (The zero-line file
is the exception - see the counterexample.) -/
theorem C5_missing_amended (fs lines : List Str) (hne : lines ≠ [])
    (hmiss : unlocatedKeys lines ≠ []) :
    loadInt fs lines = .error (.missingKeys (unlocatedKeys lines)) :=
  loadInt_missing hne hmiss

/-- C5 witness: a one-line file missing every key aborts reporting all
11 keys. -/
theorem C5_missing_witness :
    loadInt [] ["hello".data] =
      Except.error (LoadErr.missingKeys (unlocatedKeys ["hello".data])) :=
  C5_missing_amended [] ["hello".data] (by decide) (by decide)

/-- C5 counterexample: an empty (zero-line) .int file has all 11 keys
unlocatable, yet the parse reports none of them - the keyword entries
stay None, the missing-key check passes, and indexing the line list
with None raises TypeError. -/
theorem C5_missing_counterexample :
    unlocatedKeys ([] : List Str) = intKeys ∧
      loadInt [] ([] : List Str) = Except.error LoadErr.typeErr := by
  exact ⟨by decide, by decide⟩

/-- C6 counterexample: for the automask key (a bare-colon key) a value
containing a colon is truncated at it - the extraction is not the
entire text after the first colon following the key label. -/
theorem C6_extract_counterexample :
    extractFromLine key_negm false "Automask pixel value: 0:5".data = some "0".data ∧
      ("0".data : Str) ≠ "0:5".data := by
  exact ⟨by decide, by decide⟩

/-- C6 (amended): for the three path keys the split happens on the
Key-colon literal, so colons inside the value are preserved; for the
other eight keys the split is on a bare colon and the value is the text
between the first and second colons; an inline # comment is stripped
from the # onward and surrounding whitespace is stripped, interior
whitespace preserved. -/
theorem C6_extract_amended (k w v v1 v2 c : Str)
    (hkc : containsChar k ':' = false) (hkn : containsChar k '\n' = false)
    (hwn : containsChar w '\n' = false)
    (hsub : pySubstr (k ++ [':']) (' ' :: w) = false)
    (hwh : containsChar w '#' = false) (hws : pyStrip w = w)
    (hvc : containsChar v ':' = false) (hvn : containsChar v '\n' = false)
    (hvh : containsChar v '#' = false) (hvs : pyStrip v = v)
    (hv1c : containsChar v1 ':' = false) (hv1n : containsChar v1 '\n' = false)
    (hv2n : containsChar v2 '\n' = false) (hv1h : containsChar v1 '#' = false)
    (hv1s : pyStrip v1 = v1)
    (hcc : containsChar c ':' = false) (hcn : containsChar c '\n' = false) :
    extractFromLine k true (paramLine k w) = some w ∧
    extractFromLine k false (paramLine k v) = some v ∧
    extractFromLine k false (paramLine k (v1 ++ ':' :: v2)) = some v1 ∧
    extractFromLine k false (paramLine k (v ++ '#' :: c)) = some v :=
  ⟨extract_keyed hkn hwn hsub hwh hws,
   extract_bare hkc hkn hvc hvn hvh hvs,
   extract_bare_colon hkc hkn hv1c hv1n hv2n hv1h hv1s,
   extract_bare_comment hkc hkn hvc hvn hcc hcn hvh hvs⟩

/-- C6 witness: the keyed split preserves a Windows drive-letter path,
the bare split returns a clean value, truncates at a colon, and strips
an inline comment. -/
theorem C6_extract_witness :
    extractFromLine key_poni true (paramLine key_poni "C:/cal/geo.poni".data) =
      some "C:/cal/geo.poni".data ∧
    extractFromLine key_poni false (paramLine key_poni "2th_deg".data) =
      some "2th_deg".data ∧
    extractFromLine key_poni false (paramLine key_poni ("0".data ++ ':' :: "5".data)) =
      some "0".data ∧
    extractFromLine key_poni false (paramLine key_poni ("2th_deg".data ++ '#' :: " note".data)) =
      some "2th_deg".data :=
  C6_extract_amended key_poni "C:/cal/geo.poni".data "2th_deg".data "0".data "5".data
    " note".data (by decide) (by decide) (by decide) (by decide) (by decide) (by decide)
    (by decide) (by decide) (by decide) (by decide) (by decide) (by decide) (by decide)
    (by decide) (by decide) (by decide) (by decide)

/-- C7: the claim is right and the code wrong - the output name uses
Python str.strip with the extension as a character set, so a stem
ending in one of the characters t, i, f, . loses those characters:
sample_t.tiff becomes sample_.xy (not sample_t.xy) and fit.tiff
becomes just .xy. -/
theorem C7_strip_eval :
    oneD_basename ".tiff".data ".xy".data "sample_t.tiff".data = "sample_.xy".data ∧
    oneD_basename ".tiff".data ".xy".data "fit.tiff".data = ".xy".data ∧
    ("sample_.xy".data : Str) ≠ "sample_t.xy".data := by
  exact ⟨by decide, by decide, by decide⟩

/-- C8 counterexample: with errorModel none the first column label is
the unit prefixed with #, not the bare unit the claim states. -/
theorem C8_mapping_counterexample :
    oneD_selection (some "none".data) "2th_deg".data =
      some (".xy".data, ["#2th_deg".data, "I".data]) ∧
    ("#2th_deg".data : Str) ≠ "2th_deg".data := by
  exact ⟨by decide, by decide⟩

/-- C8 (amended): errorModel none (in any of its three spellings) gives
extension .xy and columns [# ++ unit, I]; poisson gives .xye and
[# ++ unit, I, I_err]. -/
theorem C8_mapping_amended (u : Str) :
    oneD_selection (some "none".data) u = some (".xy".data, ['#' :: u, "I".data]) ∧
    oneD_selection (some "None".data) u = some (".xy".data, ['#' :: u, "I".data]) ∧
    oneD_selection none u = some (".xy".data, ['#' :: u, "I".data]) ∧
    oneD_selection (some "poisson".data) u =
      some (".xye".data, ['#' :: u, "I".data, "I_err".data]) := by
  refine ⟨?_, ?_, ?_, ?_⟩ <;> rfl

/-- C9: the per-image body updates the counter and the filename list
together, so after any prefix of the batch, and at its end, the total
count equals the number of recorded filenames - the count reported at
the end equals the number of names written to the record section. -/
theorem C9_count_invariant (image_extension : Str) (listings : List (List Str)) :
    ((runBatch image_extension listings ⟨0, []⟩).totalintcount =
      (runBatch image_extension listings ⟨0, []⟩).intedimages.length) ∧
    (∀ (st : BatchState) (f : Str), integrateFile st f =
      { totalintcount := st.totalintcount + 1, intedimages := st.intedimages ++ [f] }) ∧
    (∀ st : BatchState,
      (runBatch image_extension listings st).totalintcount + st.intedimages.length =
        (runBatch image_extension listings st).intedimages.length + st.totalintcount) := by
  refine ⟨?_, fun st f => rfl, fun st => ?_⟩
  · obtain ⟨h1, h2⟩ := runBatch_counts image_extension listings ⟨0, []⟩
    rw [h1, h2]
    rfl
  · obtain ⟨h1, h2⟩ := runBatch_counts image_extension listings st
    rw [h1, h2]
    omega

/-- C10: the .int file at the target path is truncated and rewritten
with the current configuration before the confirmation answer is
evaluated - after the tail of the run, whatever the answer and whatever
was stored before, the persisted content is the fresh serialization,
and integration proceeds exactly when the answer is 1. -/
theorem C10_persist_before_confirm (cfg : IntegrationConfig) (m : Meta)
    (answer path : Str) (store : List (Str × Str)) :
    storeRead (confirmAndPersist cfg m answer path store).1 path =
      some (serializeText cfg m) ∧
    (confirmAndPersist cfg m answer path store).2 = (answer == "1".data) := by
  have key : (confirmAndPersist cfg m answer path store).1 =
      storeWrite store path (serializeText cfg m) := by
    unfold confirmAndPersist
    split
    · rfl
    · split
      · rfl
      · rfl
  constructor
  · rw [key]
    exact storeRead_write store path (serializeText cfg m)
  · unfold confirmAndPersist
    by_cases h1 : answer.isEmpty
    · rw [if_pos h1]
      have ha : answer = [] := by simpa using h1
      subst ha
      rfl
    · rw [if_neg h1]
      by_cases h2 : answer = "1".data
      · subst h2
        rw [if_neg (not_not_intro rfl)]
        rfl
      · rw [if_pos h2]
        exact (beq_eq_false_iff_ne.mpr h2).symm
end GI
